import Mathlib

/-!
# Pod helpers of `knative.dev/reconciler-test/pkg/k8s` (`pod.go`)

A shallow embedding of `GetFirstTerminationMessage`, `GetOperationsResult`, `PodReference`
and `WithDefaultPodSecurityContext`, followed by the properties established for them.

Conventions of the embedding.

* A Go pointer that may be nil is an `Option`.
* A Go `error` is represented by its text (`Error()`); `none` is the nil error.
* A function that mutates an argument in place returns the new value of that argument.
* `WithDefaultPodSecurityContext` is embedded twice: on configuration values that are trees,
  for what the call leaves at the paths it writes, and on a heap of map objects, where a map
  value is a reference, for which entries the call leaves alone.
* What the code uses from outside the repository (the JSON decoder, the Unicode table of
  `strconv.IsPrint`, the scheme of the core types, the default security contexts of
  `knative.dev/pkg/test/security`) is a parameter of the embedded function.
-/

set_option autoImplicit false

namespace k8s

/-! ## Pods (the fields of `corev1.Pod` read by `pod.go`) -/

/-- The `corev1.ContainerStateTerminated` record, reduced to the field read here. -/
structure ContainerStateTerminated where
  Message : String

/-- The `corev1.ContainerState` record: `Terminated` is a pointer, nil unless the container
has terminated. -/
structure ContainerState where
  Terminated : Option ContainerStateTerminated

/-- The `corev1.ContainerStatus` record. -/
structure ContainerStatus where
  State : ContainerState

/-- The `corev1.PodStatus` record. -/
structure PodStatus where
  ContainerStatuses : List ContainerStatus

/-- The `corev1.Pod` record; `Name` and `Namespace` are the promoted `ObjectMeta` fields. -/
structure Pod where
  Name : String
  Namespace : String
  Status : PodStatus

/-- The `for _, cs := range pod.Status.ContainerStatuses` loop of
`GetFirstTerminationMessage` (lines 34-38), together with the `return ""` reached when the
loop runs to its end (line 40). -/
def rangeContainerStatuses : List ContainerStatus → String
  | [] => ""
  | cs :: rest =>
    match cs.State.Terminated with
    | some t => if t.Message ≠ "" then t.Message else rangeContainerStatuses rest
    | none => rangeContainerStatuses rest

/-- `GetFirstTerminationMessage` (lines 32-41). -/
def GetFirstTerminationMessage (pod : Option Pod) : String :=
  match pod with
  | some p => rangeContainerStatuses p.Status.ContainerStatuses
  | none => ""

/-! ## `%q`: `strconv.Quote` on valid UTF-8 text -/

/-- The digit table `lowerhex` of `strconv`. -/
def lowerhex (n : Nat) : Char :=
  "0123456789abcdef".data.getD n '0'

/-- `strconv.IsPrint`: the Latin-1 fast path is the code of the Go library; above `0xFF` the
library consults Unicode tables, which are the parameter `wide`. -/
def IsPrint (wide : Char → Bool) (r : Char) : Bool :=
  if r.toNat ≤ 0xFF then
    if 0x20 ≤ r.toNat ∧ r.toNat ≤ 0x7E then true
    else if 0xA1 ≤ r.toNat ∧ r.toNat ≤ 0xFF then r.toNat ≠ 0xAD
    else false
  else wide r

/-- The `s`-bit hexadecimal digits of `n`, most significant first, four bits at a time
(the `for s := 12; s >= 0; s -= 4` loops of `appendEscapedRune`). -/
def hexDigits (n : Nat) : List Nat → List Char
  | [] => []
  | s :: rest => lowerhex ((n >>> s) % 16) :: hexDigits n rest

/-- `strconv.appendEscapedRune` with quote `"`, `ASCIIonly = false`, `graphicOnly = false`,
as called by `strconv.Quote`. A Lean `Char` is always a valid rune. -/
def appendEscapedRune (wide : Char → Bool) (r : Char) : List Char :=
  if r = '"' ∨ r = '\\' then ['\\', r]
  else if IsPrint wide r then [r]
  else if r.toNat = 7 then ['\\', 'a']
  else if r.toNat = 8 then ['\\', 'b']
  else if r.toNat = 12 then ['\\', 'f']
  else if r.toNat = 10 then ['\\', 'n']
  else if r.toNat = 13 then ['\\', 'r']
  else if r.toNat = 9 then ['\\', 't']
  else if r.toNat = 11 then ['\\', 'v']
  else if r.toNat < 0x20 ∨ r.toNat = 0x7f then
    ['\\', 'x', lowerhex (r.toNat >>> 4), lowerhex (r.toNat % 16)]
  else if r.toNat < 0x10000 then '\\' :: 'u' :: hexDigits r.toNat [12, 8, 4, 0]
  else '\\' :: 'U' :: hexDigits r.toNat [28, 24, 20, 16, 12, 8, 4, 0]

/-- The rune loop of `strconv.Quote`, between the two quote marks. -/
def quoteBody (wide : Char → Bool) : List Char → List Char
  | [] => []
  | r :: rest => appendEscapedRune wide r ++ quoteBody wide rest

/-- `strconv.Quote`, which is what the verb `%q` of `fmt` prints for a string and for the
text of an error. -/
def Quote (wide : Char → Bool) (s : String) : String :=
  String.mk ('"' :: (quoteBody wide s.data ++ ['"']))

/-! ## `GetOperationsResult` -/

/-- What `GetOperationsResult` uses from the Go library, for an output of type `R`.

* `IsPrintWide` is the part of `strconv.IsPrint` above `0xFF`.
* `Unmarshal data out` is `json.Unmarshal(data, &result)` seen from the caller: `out` is the
  caller's output value before the call, the first component what it holds afterwards, the
  second the error returned (`none` for nil). -/
structure GoLib (R : Type) where
  IsPrintWide : Char → Bool
  Unmarshal : String → R → R × Option String

/-- `GetOperationsResult` (lines 43-56). The context argument is unused by the code. The
result is the error returned and the caller's output value after the call. -/
def GetOperationsResult {R : Type} (lib : GoLib R) (pod : Option Pod) (result : R) :
    Option String × R :=
  match pod with
  | none => (some "pod was nil", result)
  | some p =>
    let terminationMessage := GetFirstTerminationMessage (some p)
    if terminationMessage = "" then
      (some ("did not find termination message for pod " ++ Quote lib.IsPrintWide p.Name),
        result)
    else
      match lib.Unmarshal terminationMessage result with
      | (result', some err) =>
        (some ("failed to unmarshal terminationmessage: "
            ++ Quote lib.IsPrintWide terminationMessage ++ " : " ++ Quote lib.IsPrintWide err),
          result')
      | (result', none) => (none, result')

/-- The output type of the examples: a Go `struct { Success bool }` whose field carries the
JSON name `success`. -/
structure OperationsResult where
  Success : Bool
  deriving DecidableEq, Repr

/-- The JSON text `json.Marshal` produces for an `OperationsResult`. -/
def sampleMarshal (v : OperationsResult) : String :=
  if v.Success then "\x7b\"success\":true\x7d" else "\x7b\"success\":false\x7d"

/-- A stand-in for the Go library in the examples, for an output of type `OperationsResult`.
`Unmarshal` is a table of four texts with the outcome `json.Unmarshal` has on them; a text
outside the table is reported as such. Every rune above `0xFF` is taken as printable. -/
def sampleLib : GoLib OperationsResult where
  IsPrintWide := fun _ => true
  Unmarshal := fun data out =>
    if data = "\x7b\"success\":true\x7d" then (⟨true⟩, none)
    else if data = "\x7b\"success\":false\x7d" then (⟨false⟩, none)
    else if data = "not-json" then
      (out, some "invalid character 'o' in literal null (expecting 'u')")
    else if data = "\x7b\"success\":tru\x7d" then
      (out, some "invalid character '\x7d' in literal true (expecting 'e')")
    else (out, some "text outside the table of the sample decoder")

/-- The JSON text `json.Marshal` produces for a `map[string]int` whose keys need no escape,
the entries taken in the order given (the library sorts the keys). -/
def sampleMapMarshal (v : List (String × Int)) : String :=
  "\x7b" ++ ",".intercalate (v.map (fun e => "\"" ++ e.1 ++ "\":" ++ toString e.2)) ++ "\x7d"

/-- A stand-in for the Go library in the examples, for an output that is a non-nil
`map[string]int`, written as the list of its entries. `Unmarshal` is a table of one text
with the outcome `json.Unmarshal` has on it: decoding an object into a map that already
exists sets the keys of the object and keeps every other entry of the map. -/
def sampleMapLib : GoLib (List (String × Int)) where
  IsPrintWide := fun _ => true
  Unmarshal := fun data out =>
    if data = "\x7b\"a\":1\x7d" then (("a", 1) :: out.filter (fun e => e.1 ≠ "a"), none)
    else (out, some "text outside the table of the sample decoder")

/-- A container status in the terminated state with the given message. -/
def terminatedWith (message : String) : ContainerStatus :=
  ⟨⟨some ⟨message⟩⟩⟩

/-- A container status that is not in the terminated state. -/
def notTerminated : ContainerStatus :=
  ⟨⟨none⟩⟩

/-- `needle` occurs in `text` as a contiguous run of characters. -/
def Occurs (needle text : String) : Prop :=
  needle.data <:+: text.data

instance (needle text : String) : Decidable (Occurs needle text) :=
  inferInstanceAs (Decidable (needle.data <:+: text.data))

/-- No rune of `s` is rewritten by `%q`: each is printable and is neither the quote mark nor
the backslash. -/
def Verbatim (wide : Char → Bool) (s : String) : Prop :=
  ∀ r ∈ s.data, r ≠ '"' ∧ r ≠ '\\' ∧ IsPrint wide r = true

instance (wide : Char → Bool) (s : String) : Decidable (Verbatim wide s) :=
  inferInstanceAs (Decidable (∀ r ∈ s.data, r ≠ '"' ∧ r ≠ '\\' ∧ IsPrint wide r = true))

/-! ## Configuration values

`cfg` is a `map[string]interface{}`. A dynamic value is a tree: the model covers
configurations in which no map object is reachable along two different paths, which is the
nested mapping of the data model. A map keeps its bindings in a list; only `mapLookup`,
`mapAssign` and `mapKeys` look at it. It is used for what the call leaves at the paths it
writes. Which entries the call leaves alone depends on whether map objects are shared, and
is settled on the heap model further down, where a map value is a reference. -/

/-- A Go `interface{}` value as it occurs in a configuration mapping. `null` is the nil
interface, `strs` a `[]string`, `map none` a nil `map[string]interface{}`, `map (some kvs)` a
non-nil one, and `other` a value of any other dynamic type (a number, a `[]interface{}`, a
`map[string]string`, ...), named by a description. -/
inductive Value where
  | null
  | bool (b : Bool)
  | str (s : String)
  | strs (l : List String)
  | other (descr : String)
  | map (m : Option (List (String × Value)))

/-- A `map[string]interface{}`: `none` is the nil map. -/
abbrev GoMap := Option (List (String × Value))

/-- The ways the function can panic. -/
inductive Panic where
  | typeAssertion
  | assignNilMap
  deriving DecidableEq, Repr

/-- The two-valued read `v, ok := m[k]`; a nil map reads as empty. -/
def mapLookup (m : GoMap) (k : String) : Option Value :=
  match m with
  | none => none
  | some kvs => kvs.lookup k

/-- The one-valued read `m[k]`: the zero value, a nil interface, when `k` is not set. -/
def mapIndex (m : GoMap) (k : String) : Value :=
  (mapLookup m k).getD Value.null

/-- Rebinding `k` in a list of bindings: in place when `k` is bound, at the end otherwise. -/
def assignFields (k : String) (v : Value) : List (String × Value) → List (String × Value)
  | [] => [(k, v)]
  | (k', v') :: rest =>
    if k' = k then (k, v) :: rest else (k', v') :: assignFields k v rest

/-- The assignment `m[k] = v`, which panics on a nil map. -/
def mapAssign (m : GoMap) (k : String) (v : Value) : Except Panic GoMap :=
  match m with
  | none => Except.error Panic.assignNilMap
  | some kvs => Except.ok (some (assignFields k v kvs))

/-- The keys set in a map. -/
def mapKeys (m : GoMap) : List String :=
  match m with
  | none => []
  | some kvs => kvs.map Prod.fst

/-- The type assertion `v.(map[string]interface{})`. -/
def assertMap (v : Value) : Except Panic GoMap :=
  match v with
  | Value.map m => Except.ok m
  | _ => Except.error Panic.typeAssertion

/-- The type assertion `v.([]string)`. -/
def assertStrings (v : Value) : Except Panic (List String) :=
  match v with
  | Value.strs l => Except.ok l
  | _ => Except.error Panic.typeAssertion

/-- The values `WithDefaultPodSecurityContext` reads from
`pkgsecurity.DefaultPodSecurityContext` and `pkgsecurity.DefaultContainerSecurityContext`
(package `knative.dev/pkg/test/security`, not part of the sources): `RunAsNonRoot`,
`SeccompProfile.Type`, `AllowPrivilegeEscalation`, `Capabilities.Drop` and
`Capabilities.Add`. The two `*bool` fields are represented by the booleans they point to and
the capability names by their strings. -/
structure SecurityDefaults where
  RunAsNonRoot : Bool
  SeccompProfileType : String
  AllowPrivilegeEscalation : Bool
  Drop : List String
  Add : List String

/-- Modelled from the spec: the fixed defaults of `knative.dev/pkg/test/security`, which the
sources do not contain. The spec gives `runAsNonRoot` as true, the seccomp profile type as
"RuntimeDefault" and `allowPrivilegeEscalation` as false, and leaves the two capability
lists open. -/
def specDefaults (drop add : List String) : SecurityDefaults where
  RunAsNonRoot := true
  SeccompProfileType := "RuntimeDefault"
  AllowPrivilegeEscalation := false
  Drop := drop
  Add := add

/-- The loop `for _, drop := range ... { capabilities[key] = append(capabilities[key].([]string),
string(drop)) }` of lines 102-104 (`key = "drop"`) and 108-110 (`key = "add"`), over the
list `names` that the loop ranges over. -/
def appendCapabilities (key : String) : List String → GoMap → Except Panic GoMap
  | [], capabilities => pure capabilities
  | drop :: rest, capabilities => do
    let current ← assertStrings (mapIndex capabilities key)
    let capabilities ← mapAssign capabilities key (Value.strs (current ++ [drop]))
    appendCapabilities key rest capabilities

/-- Lines 83-90 of `WithDefaultPodSecurityContext`. In Go `podSecurityContext` and
`seccompProfile` are references into `cfg`; here each updated map is stored back at its key
(the last two steps). -/
def defaultPodSecurityContext (d : SecurityDefaults) (cfg : GoMap) : Except Panic GoMap := do
  let cfg ←
    if (mapLookup cfg "podSecurityContext").isNone then
      mapAssign cfg "podSecurityContext" (Value.map (some []))
    else pure cfg
  let podSecurityContext ← assertMap (mapIndex cfg "podSecurityContext")
  let podSecurityContext ←
    mapAssign podSecurityContext "runAsNonRoot" (Value.bool d.RunAsNonRoot)
  let podSecurityContext ← mapAssign podSecurityContext "seccompProfile" (Value.map (some []))
  let seccompProfile ← assertMap (mapIndex podSecurityContext "seccompProfile")
  let seccompProfile ← mapAssign seccompProfile "type" (Value.str d.SeccompProfileType)
  let podSecurityContext ←
    mapAssign podSecurityContext "seccompProfile" (Value.map seccompProfile)
  mapAssign cfg "podSecurityContext" (Value.map podSecurityContext)

/-- Lines 100-111 of `WithDefaultPodSecurityContext`: the two guarded blocks that fill
`capabilities`. Both loops range over the default drop list, as the source has it. -/
def defaultCapabilities (d : SecurityDefaults) (capabilities : GoMap) : Except Panic GoMap := do
  let capabilities ←
    if d.Drop.length ≠ 0 then do
      let capabilities ← mapAssign capabilities "drop" (Value.strs [])
      appendCapabilities "drop" d.Drop capabilities
    else pure capabilities
  if d.Add.length ≠ 0 then do
    let capabilities ← mapAssign capabilities "add" (Value.strs [])
    appendCapabilities "add" d.Drop capabilities
  else pure capabilities

/-- Lines 92-99 of `WithDefaultPodSecurityContext`, followed by lines 100-111
(`defaultCapabilities`). The updated maps are stored back at their keys (the last two
steps). -/
def defaultContainerSecurityContext (d : SecurityDefaults) (cfg : GoMap) :
    Except Panic GoMap := do
  let cfg ←
    if (mapLookup cfg "containerSecurityContext").isNone then
      mapAssign cfg "containerSecurityContext" (Value.map (some []))
    else pure cfg
  let containerSecurityContext ← assertMap (mapIndex cfg "containerSecurityContext")
  let containerSecurityContext ←
    mapAssign containerSecurityContext "allowPrivilegeEscalation"
      (Value.bool d.AllowPrivilegeEscalation)
  let containerSecurityContext ←
    mapAssign containerSecurityContext "capabilities" (Value.map (some []))
  let capabilities ← assertMap (mapIndex containerSecurityContext "capabilities")
  let capabilities ← defaultCapabilities d capabilities
  let containerSecurityContext ←
    mapAssign containerSecurityContext "capabilities" (Value.map capabilities)
  mapAssign cfg "containerSecurityContext" (Value.map containerSecurityContext)

/-- `WithDefaultPodSecurityContext` (lines 82-112): the new content of `cfg`, or the panic
that ends the call. -/
def WithDefaultPodSecurityContext (d : SecurityDefaults) (cfg : GoMap) : Except Panic GoMap := do
  let cfg ← defaultPodSecurityContext d cfg
  defaultContainerSecurityContext d cfg

/-- The value reached from `v` along a path of keys, if every step but the last lands on a
map that has the next key. -/
def getPath : Value → List String → Option Value
  | v, [] => some v
  | Value.map m, k :: ks =>
    match mapLookup m k with
    | some v => getPath v ks
    | none => none
  | _, _ :: _ => none

/-- The value is a non-nil `map[string]interface{}`. -/
def Value.isMutableMap : Value → Bool
  | Value.map (some _) => true
  | _ => false

/-- The value is a `map[string]interface{}`, nil or not: the type assertion accepts it. -/
def Value.isMap : Value → Bool
  | Value.map _ => true
  | _ => false

/-- Key `k` of `cfg` is not set, or is set to a non-nil map. -/
def absentOrMutableMap (cfg : GoMap) (k : String) : Bool :=
  match mapLookup cfg k with
  | none => true
  | some v => v.isMutableMap

/-- Key `k` of `cfg` is not set, or is set to a map (possibly a nil one). -/
def absentOrMap (cfg : GoMap) (k : String) : Bool :=
  match mapLookup cfg k with
  | none => true
  | some v => v.isMap

/-- Key `k` of `cfg` is set to a value that is not a map. -/
def presentNotMap (cfg : GoMap) (k : String) : Bool :=
  match mapLookup cfg k with
  | none => false
  | some v => !v.isMap

/-- A well-shaped configuration, the standing assumption of the defaulter: `cfg` is a
mutable (non-nil) mapping and each of the keys "podSecurityContext" and
"containerSecurityContext" is absent or set to a mutable mapping. -/
def WellShaped (cfg : GoMap) : Bool :=
  cfg.isSome && absentOrMutableMap cfg "podSecurityContext"
    && absentOrMutableMap cfg "containerSecurityContext"

/-! ## `PodReference`

The scheme of `k8s.io/apimachinery/pkg/runtime` is outside the repository: what registering
the core types and resolving the kinds of the pod return are parameters. The four small
functions of `k8s.io/apimachinery/pkg/runtime/schema`, `metav1.TypeMeta` and
`knative.dev/pkg/kmeta` that turn the resolved kind into the reference are written out. -/

/-- The `schema.GroupVersionKind` record. -/
structure GroupVersionKind where
  Group : String
  Version : String
  Kind : String
  deriving DecidableEq, Repr

/-- The `metav1.TypeMeta` record of the pod built by `PodReference`. The functions above do
not read it, so it is carried beside the `Pod` record instead of inside it. -/
structure TypeMeta where
  APIVersion : String
  Kind : String
  deriving DecidableEq, Repr

/-- The `corev1.ObjectReference` record, fields in the order of the Go declaration. -/
structure ObjectReference where
  Kind : String
  Namespace : String
  Name : String
  UID : String
  APIVersion : String
  ResourceVersion : String
  FieldPath : String
  deriving DecidableEq, Repr

/-- The zero value `corev1.ObjectReference{}`. -/
def ObjectReference.zero : ObjectReference :=
  ⟨"", "", "", "", "", "", ""⟩

/-- `GroupVersionKind.Empty`: all three fields have length zero. -/
def GroupVersionKind.Empty (gvk : GroupVersionKind) : Bool :=
  gvk.Group.length == 0 && gvk.Version.length == 0 && gvk.Kind.length == 0

/-- `GroupVersion.String` on the group and version of a kind: `group/version`, or the
version alone for the group without a name. -/
def GroupVersionKind.groupVersionString (gvk : GroupVersionKind) : String :=
  if gvk.Group.length > 0 then gvk.Group ++ "/" ++ gvk.Version else gvk.Version

/-- `GroupVersionKind.ToAPIVersionAndKind` (line 78). -/
def GroupVersionKind.ToAPIVersionAndKind (gvk : GroupVersionKind) : String × String :=
  if gvk.Empty then ("", "") else (gvk.groupVersionString, gvk.Kind)

/-- `schema.ParseGroupVersion`: the group and the version of an API version text, or the
error for a text with more than one slash. -/
def ParseGroupVersion (gv : String) : Except String (String × String) :=
  if gv.length = 0 ∨ gv = "/" then Except.ok ("", "")
  else
    match gv.data.count '/' with
    | 0 => Except.ok ("", gv)
    | 1 =>
      Except.ok (String.mk (gv.data.takeWhile (fun c => c ≠ '/')),
        String.mk ((gv.data.dropWhile (fun c => c ≠ '/')).drop 1))
    | _ => Except.error ("unexpected GroupVersion string: " ++ gv)

/-- `schema.FromAPIVersionAndKind`: a text that does not parse gives the kind alone. -/
def FromAPIVersionAndKind (apiVersion kind : String) : GroupVersionKind :=
  match ParseGroupVersion apiVersion with
  | Except.ok (group, version) => ⟨group, version, kind⟩
  | Except.error _ => ⟨"", "", kind⟩

/-- `kmeta.ObjectReference` on a pod: the kind is read back through
`TypeMeta.GroupVersionKind`, that is `schema.FromAPIVersionAndKind`, and printed again; name
and namespace are those of the object. -/
def kmetaObjectReference (typeMeta : TypeMeta) (pod : Pod) : ObjectReference :=
  let gvk := FromAPIVersionAndKind typeMeta.APIVersion typeMeta.Kind
  let (apiVersion, kind) := gvk.ToAPIVersionAndKind
  { Kind := kind, Namespace := pod.Namespace, Name := pod.Name, UID := "",
    APIVersion := apiVersion, ResourceVersion := "", FieldPath := "" }

/-- What `PodReference` gets from the scheme.

* `AddToScheme` is the error of `corev1.SchemeBuilder.AddToScheme(scheme)` on the new scheme
  (`none` for nil).
* `ObjectKinds pod` is `scheme.ObjectKinds(pod)` on the scheme so filled: the error, or the
  kinds the type of the object is registered under. -/
structure SchemeLib where
  AddToScheme : Option String
  ObjectKinds : Pod → Except String (List GroupVersionKind)

/-- `PodReference` (lines 59-80): the reference and the error returned. `errors.WithStack`
keeps the text of the error it wraps. -/
def PodReference (lib : SchemeLib) (ns : String) (name : String) :
    ObjectReference × Option String :=
  let pod : Pod := ⟨name, ns, ⟨[]⟩⟩
  match lib.AddToScheme with
  | some err => (ObjectReference.zero, some err)
  | none =>
    match lib.ObjectKinds pod with
    | Except.error err => (ObjectReference.zero, some err)
    | Except.ok kinds =>
      if h : ¬ (kinds.length > 0) then (ObjectReference.zero, some "want len(kinds) > 0")
      else
        let kind := kinds.get ⟨0, Decidable.not_not.mp h⟩
        let (apiVersion, k) := kind.ToAPIVersionAndKind
        (kmetaObjectReference ⟨apiVersion, k⟩ pod, none)

/-- The scheme of the core API group (package `k8s.io/api/core/v1`, not part of the sources)
as far as `PodReference` sees it: registration succeeds and a pod resolves to the kind `Pod`
of version `v1` in the group without a name. -/
def coreScheme : SchemeLib where
  AddToScheme := none
  ObjectKinds := fun _ => Except.ok [⟨"", "v1", "Pod"⟩]

/-- A kind a scheme can resolve a pod to: it is named `Pod`, its version is not empty, and
neither group nor version holds a slash. -/
def GroupVersionKind.IsPodKind (gvk : GroupVersionKind) : Prop :=
  gvk.Kind = "Pod" ∧ gvk.Version ≠ "" ∧ '/' ∉ gvk.Group.data ∧ '/' ∉ gvk.Version.data

instance (gvk : GroupVersionKind) : Decidable gvk.IsPodKind :=
  inferInstanceAs (Decidable (_ ∧ _ ∧ _ ∧ _))

/-! ## Closed forms of the result

The content of the maps after a call on a well-shaped configuration, written with
`assignFields` alone. The lemmas below show that the embedded function computes them. -/

/-- The bindings of the map at key `k` of `cfg`; no bindings when `k` is not set to a
non-nil map. -/
def subFields (cfg : GoMap) (k : String) : List (String × Value) :=
  match mapLookup cfg k with
  | some (Value.map (some kvs)) => kvs
  | _ => []

/-- The pod security context after lines 87-90, from its bindings `kvs` before them. -/
def podSecurityContextAfter (d : SecurityDefaults) (kvs : List (String × Value)) :
    List (String × Value) :=
  assignFields "seccompProfile" (Value.map (some [("type", Value.str d.SeccompProfileType)]))
    (assignFields "runAsNonRoot" (Value.bool d.RunAsNonRoot) kvs)

/-- The `capabilities` map after lines 98-111. -/
def capabilitiesAfter (d : SecurityDefaults) : List (String × Value) :=
  (if d.Drop.length ≠ 0 then [("drop", Value.strs d.Drop)] else [])
    ++ (if d.Add.length ≠ 0 then [("add", Value.strs d.Drop)] else [])

/-- The container security context after lines 96-111, from its bindings `kvs` before
them. -/
def containerSecurityContextAfter (d : SecurityDefaults) (kvs : List (String × Value)) :
    List (String × Value) :=
  assignFields "capabilities" (Value.map (some (capabilitiesAfter d)))
    (assignFields "allowPrivilegeEscalation" (Value.bool d.AllowPrivilegeEscalation) kvs)

/-- The bindings of `cfg` after the call, from its bindings `kvs` before it. -/
def configAfter (d : SecurityDefaults) (kvs : List (String × Value)) : List (String × Value) :=
  assignFields "containerSecurityContext"
    (Value.map (some (containerSecurityContextAfter d
      (subFields (some kvs) "containerSecurityContext"))))
    (assignFields "podSecurityContext"
      (Value.map (some (podSecurityContextAfter d (subFields (some kvs) "podSecurityContext"))))
      kvs)

/-! ## Configuration values with shared maps

A Go map is a reference: the same map object can be bound under several keys, and what is
written through one binding is read through the others. Here the map objects live in a heap
and a map value is the address of its object, so such configurations can be written down.
This is the model used for the properties that depend on which object a write goes to; the
tree model above has no two bindings of one object. -/

/-- A Go `interface{}` value whose maps are references: `map none` is a nil
`map[string]interface{}`, `map (some a)` the map object at address `a` of the heap. The other
constructors are those of `Value`. -/
inductive RefValue where
  | null
  | bool (b : Bool)
  | str (s : String)
  | strs (l : List String)
  | other (descr : String)
  | map (ref : Option Nat)
  deriving DecidableEq, Repr

/-- The bindings of one map object. -/
abbrev MapObject := List (String × RefValue)

/-- The map objects in existence, by address: the object at address `a` is the `a`-th of the
list. -/
abbrev Heap := List MapObject

/-- Rebinding `k` in a map object: in place when `k` is bound, at the end otherwise. -/
def assignEntry (k : String) (v : RefValue) : MapObject → MapObject
  | [] => [(k, v)]
  | (k', v') :: rest =>
    if k' = k then (k, v) :: rest else (k', v') :: assignEntry k v rest

/-- The map object at address `a`. -/
def heapObject (h : Heap) (a : Nat) : MapObject :=
  h.getD a []

/-- The two-valued read `v, ok := m[k]`; a nil map reads as empty. -/
def heapLookup (h : Heap) (m : Option Nat) (k : String) : Option RefValue :=
  match m with
  | none => none
  | some a => (heapObject h a).lookup k

/-- The one-valued read `m[k]`: a nil interface when `k` is not set. -/
def heapIndex (h : Heap) (m : Option Nat) (k : String) : RefValue :=
  (heapLookup h m k).getD RefValue.null

/-- The heap after `k` is rebound to `v` in the object at address `a`. -/
def heapStore (h : Heap) (a : Nat) (k : String) (v : RefValue) : Heap :=
  h.set a (assignEntry k v (heapObject h a))

/-- The assignment `m[k] = v`, which panics on a nil map. -/
def heapAssign (h : Heap) (m : Option Nat) (k : String) (v : RefValue) : Except Panic Heap :=
  match m with
  | none => Except.error Panic.assignNilMap
  | some a => Except.ok (heapStore h a k v)

/-- The heap after the composite literal `map[string]interface{}{}` made a new, empty map
object; its address is the old size of the heap. -/
def heapMake (h : Heap) : Heap :=
  h ++ [[]]

/-- The type assertion `v.(map[string]interface{})` on a value with references. -/
def assertMapRef (v : RefValue) : Except Panic (Option Nat) :=
  match v with
  | RefValue.map m => Except.ok m
  | _ => Except.error Panic.typeAssertion

/-- The type assertion `v.([]string)` on a value with references. -/
def assertStringsRef (v : RefValue) : Except Panic (List String) :=
  match v with
  | RefValue.strs l => Except.ok l
  | _ => Except.error Panic.typeAssertion

/-- The append loop of lines 102-104 and 108-110 on the heap: `capabilities` is the
reference held by the local variable. -/
def heapAppendCapabilities (key : String) (capabilities : Option Nat) :
    List String → Heap → Except Panic Heap
  | [], h => pure h
  | drop :: rest, h => do
    let current ← assertStringsRef (heapIndex h capabilities key)
    let h ← heapAssign h capabilities key (RefValue.strs (current ++ [drop]))
    heapAppendCapabilities key capabilities rest h

/-- Lines 83-90 of `WithDefaultPodSecurityContext` on the heap; `cfg` is the reference the
caller passes. -/
def heapDefaultPodSecurityContext (d : SecurityDefaults) (h : Heap) (cfg : Option Nat) :
    Except Panic Heap := do
  let h ←
    if (heapLookup h cfg "podSecurityContext").isNone then
      heapAssign (heapMake h) cfg "podSecurityContext" (RefValue.map (some h.length))
    else pure h
  let podSecurityContext ← assertMapRef (heapIndex h cfg "podSecurityContext")
  let h ← heapAssign h podSecurityContext "runAsNonRoot" (RefValue.bool d.RunAsNonRoot)
  let h ←
    heapAssign (heapMake h) podSecurityContext "seccompProfile" (RefValue.map (some h.length))
  let seccompProfile ← assertMapRef (heapIndex h podSecurityContext "seccompProfile")
  heapAssign h seccompProfile "type" (RefValue.str d.SeccompProfileType)

/-- Lines 100-111 of `WithDefaultPodSecurityContext` on the heap. -/
def heapDefaultCapabilities (d : SecurityDefaults) (h : Heap) (capabilities : Option Nat) :
    Except Panic Heap := do
  let h ←
    if d.Drop.length ≠ 0 then do
      let h ← heapAssign h capabilities "drop" (RefValue.strs [])
      heapAppendCapabilities "drop" capabilities d.Drop h
    else pure h
  if d.Add.length ≠ 0 then do
    let h ← heapAssign h capabilities "add" (RefValue.strs [])
    heapAppendCapabilities "add" capabilities d.Drop h
  else pure h

/-- Lines 92-111 of `WithDefaultPodSecurityContext` on the heap. -/
def heapDefaultContainerSecurityContext (d : SecurityDefaults) (h : Heap) (cfg : Option Nat) :
    Except Panic Heap := do
  let h ←
    if (heapLookup h cfg "containerSecurityContext").isNone then
      heapAssign (heapMake h) cfg "containerSecurityContext" (RefValue.map (some h.length))
    else pure h
  let containerSecurityContext ← assertMapRef (heapIndex h cfg "containerSecurityContext")
  let h ←
    heapAssign h containerSecurityContext "allowPrivilegeEscalation"
      (RefValue.bool d.AllowPrivilegeEscalation)
  let h ←
    heapAssign (heapMake h) containerSecurityContext "capabilities"
      (RefValue.map (some h.length))
  let capabilities ← assertMapRef (heapIndex h containerSecurityContext "capabilities")
  heapDefaultCapabilities d h capabilities

/-- `WithDefaultPodSecurityContext` (lines 82-112) on the heap: the heap after the call, or
the panic that ends it. -/
def heapWithDefaultPodSecurityContext (d : SecurityDefaults) (h : Heap) (cfg : Option Nat) :
    Except Panic Heap := do
  let h ← heapDefaultPodSecurityContext d h cfg
  heapDefaultContainerSecurityContext d h cfg

/-- The value reached from `v` along a path of keys through the heap. -/
def heapGetPath (h : Heap) : RefValue → List String → Option RefValue
  | v, [] => some v
  | RefValue.map m, k :: ks =>
    match heapLookup h m k with
    | some v => heapGetPath h v ks
    | none => none
  | _, _ :: _ => none

/-- Key `k` of the map `cfg` is not set, or is set to a map object of the heap. -/
def heapAbsentOrObject (h : Heap) (cfg : Option Nat) (k : String) : Bool :=
  match heapLookup h cfg k with
  | none => true
  | some (RefValue.map (some p)) => p < h.length
  | some _ => false

/-- A well-shaped configuration on the heap: `cfg` is a map object of the heap and each of
"podSecurityContext" and "containerSecurityContext" is absent or set to a map object of the
heap. -/
def HeapWellShaped (h : Heap) (cfg : Option Nat) : Bool :=
  match cfg with
  | none => false
  | some c =>
    c < h.length && heapAbsentOrObject h cfg "podSecurityContext"
      && heapAbsentOrObject h cfg "containerSecurityContext"

/-- The map objects `cfg`, `cfg["podSecurityContext"]` and `cfg["containerSecurityContext"]`
are different objects: neither security context is `cfg` itself, and the two are not one
object bound under both keys. -/
def Separate (h : Heap) (cfg : Option Nat) : Bool :=
  heapLookup h cfg "podSecurityContext" ≠ some (RefValue.map cfg)
    && heapLookup h cfg "containerSecurityContext" ≠ some (RefValue.map cfg)
    && (heapLookup h cfg "podSecurityContext" = none
      || heapLookup h cfg "podSecurityContext" ≠ heapLookup h cfg "containerSecurityContext")

/-- The entries of map objects that the call on a well-shaped `cfg` may write, among the
objects in existence before it: the two security contexts of `cfg`, each only when absent;
"runAsNonRoot" and "seccompProfile" of the object under "podSecurityContext";
"allowPrivilegeEscalation" and "capabilities" of the object under
"containerSecurityContext". -/
def Writes (h : Heap) (cfg : Option Nat) (a : Nat) (k : String) : Prop :=
  (cfg = some a ∧ (k = "podSecurityContext" ∨ k = "containerSecurityContext") ∧
      heapLookup h cfg k = none) ∨
    (heapIndex h cfg "podSecurityContext" = RefValue.map (some a) ∧
      (k = "runAsNonRoot" ∨ k = "seccompProfile")) ∨
    (heapIndex h cfg "containerSecurityContext" = RefValue.map (some a) ∧
      (k = "allowPrivilegeEscalation" ∨ k = "capabilities"))

/-- The heap after lines 86-90, when "podSecurityContext" is bound to the object at `p`. -/
def heapPodAfter (d : SecurityDefaults) (h : Heap) (p : Nat) : Heap :=
  heapStore
    (heapStore (heapMake (heapStore h p "runAsNonRoot" (RefValue.bool d.RunAsNonRoot))) p
      "seccompProfile" (RefValue.map (some h.length)))
    h.length "type" (RefValue.str d.SeccompProfileType)

/-- The heap after lines 95-98, when "containerSecurityContext" is bound to the object at
`q`. -/
def heapContainerBefore (d : SecurityDefaults) (h : Heap) (q : Nat) : Heap :=
  heapStore
    (heapMake
      (heapStore h q "allowPrivilegeEscalation" (RefValue.bool d.AllowPrivilegeEscalation)))
    q "capabilities" (RefValue.map (some h.length))

/-- The heap after line 84 or line 93: a new, empty map object is bound to `k` in the
object at `c`. -/
def heapBindNew (h : Heap) (c : Nat) (k : String) : Heap :=
  heapStore (heapMake h) c k (RefValue.map (some h.length))

/-- What entry `k` of the object at `a` reads after lines 83-90, from what it read before
(`before`): `p` is the pod security context, `s` the new seccomp profile, and `bound` tells
that line 84 bound `p` in the object `c`. -/
def podReads (d : SecurityDefaults) (c p s : Nat) (bound : Bool) (a : Nat) (k : String)
    (before : Option RefValue) : Option RefValue :=
  if a = s ∧ k = "type" then some (RefValue.str d.SeccompProfileType)
  else if a = p ∧ k = "seccompProfile" then some (RefValue.map (some s))
  else if a = p ∧ k = "runAsNonRoot" then some (RefValue.bool d.RunAsNonRoot)
  else if a = c ∧ k = "podSecurityContext" ∧ bound = true then some (RefValue.map (some p))
  else before

/-- What entry `k` of the object at `a` reads after lines 92-111, from what it read before:
`q` is the container security context, `m` the new capabilities map (whose own entries are
not described here), and `bound` tells that line 93 bound `q` in the object `c`. -/
def containerReads (d : SecurityDefaults) (c q m : Nat) (bound : Bool) (a : Nat) (k : String)
    (before : Option RefValue) : Option RefValue :=
  if a = q ∧ k = "capabilities" then some (RefValue.map (some m))
  else if a = q ∧ k = "allowPrivilegeEscalation" then
    some (RefValue.bool d.AllowPrivilegeEscalation)
  else if a = c ∧ k = "containerSecurityContext" ∧ bound = true then
    some (RefValue.map (some q))
  else before

/-! # Properties -/

/-! ## Termination message -/

/-- The loop skips a status that is not terminated or whose message is empty. -/
theorem rangeContainerStatuses_skip (before rest : List ContainerStatus)
    (hskip : ∀ c ∈ before, ∀ u, c.State.Terminated = some u → u.Message = "") :
    rangeContainerStatuses (before ++ rest) = rangeContainerStatuses rest := by
  induction before with
  | nil => rfl
  | cons c before ih =>
    have hrest : ∀ c' ∈ before, ∀ u, c'.State.Terminated = some u → u.Message = "" :=
      fun c' hc' => hskip c' (List.mem_cons_of_mem c hc')
    have hc := hskip c (List.mem_cons_self c before)
    cases hterm : c.State.Terminated with
    | none => simp [rangeContainerStatuses, hterm, ih hrest]
    | some u => simp [rangeContainerStatuses, hterm, hc u hterm, ih hrest]

/-- C1: `GetFirstTerminationMessage` returns the empty string for a nil pod, for a pod
without container statuses and for a pod none of whose statuses is terminated with a
non-empty message; otherwise it returns the message of the first status, in the order of
`pod.Status.ContainerStatuses`, that is terminated with a non-empty message: the statuses
before it are skipped and the statuses after it play no part. -/
theorem GetFirstTerminationMessage_first_match :
    GetFirstTerminationMessage none = "" ∧
    (∀ pod : Pod, pod.Status.ContainerStatuses = [] →
      GetFirstTerminationMessage (some pod) = "") ∧
    (∀ pod : Pod,
      (∀ c ∈ pod.Status.ContainerStatuses, ∀ u, c.State.Terminated = some u → u.Message = "") →
      GetFirstTerminationMessage (some pod) = "") ∧
    (∀ (pod : Pod) (before after : List ContainerStatus) (cs : ContainerStatus)
        (t : ContainerStateTerminated),
      pod.Status.ContainerStatuses = before ++ cs :: after →
      (∀ c ∈ before, ∀ u, c.State.Terminated = some u → u.Message = "") →
      cs.State.Terminated = some t → t.Message ≠ "" →
      GetFirstTerminationMessage (some pod) = t.Message) := by
  refine ⟨rfl, ?_, ?_, ?_⟩
  · intro pod hnil
    simp [GetFirstTerminationMessage, hnil, rangeContainerStatuses]
  · intro pod hnone
    have h := rangeContainerStatuses_skip pod.Status.ContainerStatuses [] hnone
    simpa [GetFirstTerminationMessage, rangeContainerStatuses] using h
  · intro pod before after cs t hsplit hskip hterm hmsg
    simp [GetFirstTerminationMessage, hsplit, rangeContainerStatuses_skip before _ hskip,
      rangeContainerStatuses, hterm, hmsg]

/-- C1 at the pod of the spec: a running container, a container terminated without a
message, one terminated with "ok" and one terminated with "later" give "ok". -/
theorem GetFirstTerminationMessage_first_match_witness :
    GetFirstTerminationMessage
      (some ⟨"pod1", "ns1",
        ⟨[notTerminated, terminatedWith "", terminatedWith "ok", terminatedWith "later"]⟩⟩)
      = "ok" :=
  GetFirstTerminationMessage_first_match.2.2.2
    ⟨"pod1", "ns1",
      ⟨[notTerminated, terminatedWith "", terminatedWith "ok", terminatedWith "later"]⟩⟩
    [notTerminated, terminatedWith ""] [terminatedWith "later"] (terminatedWith "ok") ⟨"ok"⟩
    rfl (by decide) rfl (by decide)

/-! ## Decoding the termination message -/

/-- C2: with a nil pod `GetOperationsResult` returns the error "pod was nil" and the caller
keeps the output value it passed, whatever that value is and whatever the decoder would do:
the nil check comes before every other failure. -/
theorem GetOperationsResult_nil_pod {R : Type} (lib : GoLib R) (result : R) :
    GetOperationsResult lib none result = (some "pod was nil", result) :=
  rfl

/-- C3: for a non-nil pod without a termination message `GetOperationsResult` returns the
error "did not find termination message for pod " followed by the `%q` form of `pod.Name`,
and the output value is the one passed in; the decoder has no part in the result. -/
theorem GetOperationsResult_missing_message {R : Type} (lib : GoLib R) (pod : Pod) (result : R)
    (hempty : GetFirstTerminationMessage (some pod) = "") :
    GetOperationsResult lib (some pod) result =
        (some ("did not find termination message for pod " ++ Quote lib.IsPrintWide pod.Name),
          result) ∧
      ∀ lib' : GoLib R, lib'.IsPrintWide = lib.IsPrintWide →
        GetOperationsResult lib' (some pod) result = GetOperationsResult lib (some pod) result := by
  constructor
  · simp [GetOperationsResult, hempty]
  · intro lib' hwide
    simp [GetOperationsResult, hempty, hwide]

/-- C3 at a pod named `pod1` whose only container is still running. -/
theorem GetOperationsResult_missing_message_witness :
    GetOperationsResult sampleLib (some ⟨"pod1", "ns1", ⟨[notTerminated]⟩⟩) ⟨false⟩ =
      (some "did not find termination message for pod \"pod1\"", ⟨false⟩) :=
  (GetOperationsResult_missing_message sampleLib ⟨"pod1", "ns1", ⟨[notTerminated]⟩⟩ ⟨false⟩
    rfl).1

/-- A rune that is printable and is neither the quote mark nor the backslash is copied. -/
theorem appendEscapedRune_verbatim (wide : Char → Bool) (r : Char)
    (hq : r ≠ '"') (hb : r ≠ '\\') (hp : IsPrint wide r = true) :
    appendEscapedRune wide r = [r] := by
  simp [appendEscapedRune, hq, hb, hp]

/-- The rune loop of `Quote` copies a text none of whose runes needs an escape. -/
theorem quoteBody_verbatim (wide : Char → Bool) (l : List Char)
    (h : ∀ r ∈ l, r ≠ '"' ∧ r ≠ '\\' ∧ IsPrint wide r = true) :
    quoteBody wide l = l := by
  induction l with
  | nil => rfl
  | cons r rest ih =>
    obtain ⟨hq, hb, hp⟩ := h r (List.mem_cons_self r rest)
    have hrest := ih (fun r' hr' => h r' (List.mem_cons_of_mem r hr'))
    simp [quoteBody, appendEscapedRune_verbatim wide r hq hb hp, hrest]

/-- The text of the decode error holds the two `%q` forms it is built from. -/
theorem decodeError_occurs (a b : String) :
    Occurs a ("failed to unmarshal terminationmessage: " ++ a ++ " : " ++ b) ∧
      Occurs b ("failed to unmarshal terminationmessage: " ++ a ++ " : " ++ b) := by
  constructor
  · refine ⟨"failed to unmarshal terminationmessage: ".data, (" : " ++ b).data, ?_⟩
    simp [String.data_append, List.append_assoc]
  · refine ⟨("failed to unmarshal terminationmessage: " ++ a ++ " : ").data, [], ?_⟩
    simp [String.data_append, List.append_assoc]

/-- A text occurs in its own `%q` form when none of its runes needs an escape. -/
theorem occurs_quote_of_verbatim (wide : Char → Bool) (s : String) (h : Verbatim wide s) :
    Occurs s (Quote wide s) := by
  refine ⟨['"'], ['"'], ?_⟩
  simp [Quote, quoteBody_verbatim wide s.data h]

/-- Occurrence is transitive. -/
theorem Occurs.trans {a b c : String} (hab : Occurs a b) (hbc : Occurs b c) : Occurs a c :=
  List.IsInfix.trans hab hbc

/-- C4, as amended: when the decoder rejects the first termination message of a non-nil pod
with the parse error `err`, `GetOperationsResult` returns the error text
"failed to unmarshal terminationmessage: ", the `%q` form of the message, " : ", the `%q`
form of `err`. The two `%q` forms occur in the text; the message itself, and `err` itself,
occur in it when none of their runes is one that `%q` escapes. -/
theorem GetOperationsResult_decode_error {R : Type} (lib : GoLib R) (pod : Pod)
    (result result' : R) (err : String)
    (hmsg : GetFirstTerminationMessage (some pod) ≠ "")
    (hdec : lib.Unmarshal (GetFirstTerminationMessage (some pod)) result = (result', some err)) :
    ∃ text : String,
      GetOperationsResult lib (some pod) result = (some text, result') ∧
      text = "failed to unmarshal terminationmessage: "
        ++ Quote lib.IsPrintWide (GetFirstTerminationMessage (some pod)) ++ " : "
        ++ Quote lib.IsPrintWide err ∧
      Occurs (Quote lib.IsPrintWide (GetFirstTerminationMessage (some pod))) text ∧
      Occurs (Quote lib.IsPrintWide err) text ∧
      (Verbatim lib.IsPrintWide (GetFirstTerminationMessage (some pod)) →
        Occurs (GetFirstTerminationMessage (some pod)) text) ∧
      (Verbatim lib.IsPrintWide err → Occurs err text) := by
  have hocc := decodeError_occurs (Quote lib.IsPrintWide (GetFirstTerminationMessage (some pod)))
    (Quote lib.IsPrintWide err)
  refine ⟨_, ?_, rfl, hocc.1, hocc.2, ?_, ?_⟩
  · simp [GetOperationsResult, hmsg, hdec]
  · intro hv
    exact (occurs_quote_of_verbatim _ _ hv).trans hocc.1
  · intro hv
    exact (occurs_quote_of_verbatim _ _ hv).trans hocc.2

set_option maxRecDepth 100000 in
/-- C4 at the message `not-json`: the error text holds the raw text `not-json` and the parse
error of the decoder. -/
theorem GetOperationsResult_decode_error_witness :
    GetOperationsResult sampleLib (some ⟨"pod1", "ns1", ⟨[terminatedWith "not-json"]⟩⟩) ⟨false⟩ =
        (some ("failed to unmarshal terminationmessage: \"not-json\" : "
          ++ "\"invalid character 'o' in literal null (expecting 'u')\""), ⟨false⟩) ∧
      Occurs "not-json" ("failed to unmarshal terminationmessage: \"not-json\" : "
          ++ "\"invalid character 'o' in literal null (expecting 'u')\"") ∧
      Occurs "invalid character 'o' in literal null (expecting 'u')"
        ("failed to unmarshal terminationmessage: \"not-json\" : "
          ++ "\"invalid character 'o' in literal null (expecting 'u')\"") := by
  obtain ⟨text, hres, htext, -, -, hraw, herr⟩ :=
    GetOperationsResult_decode_error sampleLib ⟨"pod1", "ns1", ⟨[terminatedWith "not-json"]⟩⟩
      ⟨false⟩ ⟨false⟩ "invalid character 'o' in literal null (expecting 'u')"
      (by decide) (by decide)
  have htext' : text = "failed to unmarshal terminationmessage: \"not-json\" : "
      ++ "\"invalid character 'o' in literal null (expecting 'u')\"" := by
    rw [htext]; decide
  subst htext'
  exact ⟨hres, hraw (by decide), herr (by decide)⟩

set_option maxRecDepth 100000 in
/-- C4 fails as stated: the message `{"success":tru}` is rejected by the decoder, and the
error text holds its `%q` form, in which every quote mark is escaped, so the message itself
does not occur in the text. -/
theorem GetOperationsResult_decode_error_escapes :
    GetFirstTerminationMessage
        (some ⟨"pod1", "ns1", ⟨[terminatedWith "\x7b\"success\":tru\x7d"]⟩⟩)
        = "\x7b\"success\":tru\x7d" ∧
      GetOperationsResult sampleLib
        (some ⟨"pod1", "ns1", ⟨[terminatedWith "\x7b\"success\":tru\x7d"]⟩⟩) ⟨false⟩ =
        (some ("failed to unmarshal terminationmessage: \"\x7b\\\"success\\\":tru\x7d\" : "
          ++ "\"invalid character '\x7d' in literal true (expecting 'e')\""), ⟨false⟩) ∧
      ¬ Occurs "\x7b\"success\":tru\x7d"
        ("failed to unmarshal terminationmessage: \"\x7b\\\"success\\\":tru\x7d\" : "
          ++ "\"invalid character '\x7d' in literal true (expecting 'e')\"") := by
  refine ⟨by decide, by decide, by decide⟩

/-- C5, as amended: when the first termination message of a non-nil pod is the encoding
`marshal v` of a value `v` (a JSON text, hence not empty), `GetOperationsResult` hands that
text to the decoder together with what the output holds: the output holds afterwards what
the decoder left in it, and the error returned is nil exactly when the decoder returned
none. So when the decoder turns the encoding back into `v` without error, no error is
returned and the output is `v`. -/
theorem GetOperationsResult_round_trip {R : Type} (lib : GoLib R) (marshal : R → String)
    (pod : Pod) (v result : R)
    (hmsg : GetFirstTerminationMessage (some pod) = marshal v)
    (hne : marshal v ≠ "") :
    (GetOperationsResult lib (some pod) result).2 = (lib.Unmarshal (marshal v) result).1 ∧
      ((GetOperationsResult lib (some pod) result).1 = none ↔
        (lib.Unmarshal (marshal v) result).2 = none) ∧
      (lib.Unmarshal (marshal v) result = (v, none) →
        GetOperationsResult lib (some pod) result = (none, v)) := by
  cases hdec : lib.Unmarshal (marshal v) result with
  | mk out err =>
    cases err with
    | none => simp [GetOperationsResult, hmsg, hne, hdec]
    | some e => simp [GetOperationsResult, hmsg, hne, hdec]

/-- C5 at the message `{"success":true}`: an output that held `Success = false` holds
`Success = true` after the call, and no error is returned. -/
theorem GetOperationsResult_round_trip_witness :
    sampleMarshal ⟨true⟩ = "\x7b\"success\":true\x7d" ∧
      GetOperationsResult sampleLib
        (some ⟨"pod1", "ns1", ⟨[terminatedWith "\x7b\"success\":true\x7d"]⟩⟩) ⟨false⟩ =
        (none, ⟨true⟩) :=
  ⟨by decide,
    (GetOperationsResult_round_trip sampleLib sampleMarshal
      ⟨"pod1", "ns1", ⟨[terminatedWith "\x7b\"success\":true\x7d"]⟩⟩ ⟨true⟩ ⟨false⟩
      (by decide) (by decide)).2.2 (by decide)⟩

/-- C5 fails as stated: the message `{"a":1}` is the encoding of the map with the single
entry `a = 1`, and decoding it into an output map that holds `b = 2` returns no error and
leaves both entries in the output, which is not the value encoded. -/
theorem GetOperationsResult_round_trip_merges :
    sampleMapMarshal [("a", 1)] = "\x7b\"a\":1\x7d" ∧
      GetFirstTerminationMessage
          (some ⟨"pod1", "ns1", ⟨[terminatedWith "\x7b\"a\":1\x7d"]⟩⟩)
        = "\x7b\"a\":1\x7d" ∧
      GetOperationsResult sampleMapLib
          (some ⟨"pod1", "ns1", ⟨[terminatedWith "\x7b\"a\":1\x7d"]⟩⟩) [("b", 2)]
        = (none, [("a", 1), ("b", 2)]) ∧
      ([("a", 1), ("b", 2)] : List (String × Int)) ≠ [("a", 1)] ∧
      List.lookup "b" ([("a", 1), ("b", 2)] : List (String × Int)) = some 2 ∧
      List.lookup "b" ([("a", 1)] : List (String × Int)) = none := by
  refine ⟨by decide, by decide, by decide, by decide, by decide, by decide⟩

/-! ## Maps -/

/-- After `m[k] = v` the key `k` reads `v`. -/
theorem lookup_assignFields_self (k : String) (v : Value) (kvs : List (String × Value)) :
    (assignFields k v kvs).lookup k = some v := by
  induction kvs with
  | nil => simp [assignFields, List.lookup]
  | cons kv rest ih =>
    obtain ⟨k', v'⟩ := kv
    by_cases h : k' = k
    · simp [assignFields, h, List.lookup]
    · have h' : (k == k') = false := by simpa using fun e => h e.symm
      simp [assignFields, h, List.lookup, h', ih]

/-- The assignment `m[k] = v` leaves every other key as it was. -/
theorem lookup_assignFields_ne (k k' : String) (v : Value) (kvs : List (String × Value))
    (hne : k' ≠ k) : (assignFields k v kvs).lookup k' = kvs.lookup k' := by
  induction kvs with
  | nil =>
    have h' : (k' == k) = false := by simpa using hne
    simp [assignFields, List.lookup, h']
  | cons kv rest ih =>
    obtain ⟨k₁, v₁⟩ := kv
    by_cases h : k₁ = k
    · subst h
      have h' : (k' == k₁) = false := by simpa using hne
      simp [assignFields, List.lookup, h']
    · simp [assignFields, h, List.lookup, ih]

/-- Of two assignments to one key the second one counts. -/
theorem assignFields_assignFields (k : String) (v w : Value) (kvs : List (String × Value)) :
    assignFields k w (assignFields k v kvs) = assignFields k w kvs := by
  induction kvs with
  | nil => simp [assignFields]
  | cons kv rest ih =>
    obtain ⟨k₁, v₁⟩ := kv
    by_cases h : k₁ = k
    · simp [assignFields, h]
    · simp [assignFields, h, ih]

/-- Assigning to a key the value it holds changes nothing. -/
theorem assignFields_of_lookup (k : String) (v : Value) (kvs : List (String × Value))
    (h : kvs.lookup k = some v) : assignFields k v kvs = kvs := by
  induction kvs with
  | nil => simp [List.lookup] at h
  | cons kv rest ih =>
    obtain ⟨k₁, v₁⟩ := kv
    by_cases hk : k₁ = k
    · subst hk
      simp [List.lookup] at h
      simp [assignFields, h]
    · have h' : (k == k₁) = false := by simpa using fun e => hk e.symm
      simp [List.lookup, h'] at h
      simp [assignFields, hk, ih h]

/-- The append loop, started on a map whose `key` holds the string list `current`, ends with
`key` holding `current` followed by the names ranged over. -/
theorem appendCapabilities_eq (key : String) (names current : List String)
    (kvs : List (String × Value)) (h : kvs.lookup key = some (Value.strs current)) :
    appendCapabilities key names (some kvs)
      = Except.ok (some (assignFields key (Value.strs (current ++ names)) kvs)) := by
  induction names generalizing current kvs with
  | nil =>
    simp [appendCapabilities, assignFields_of_lookup key _ kvs h, pure, Except.pure]
  | cons n rest ih =>
    have hnext := ih (current ++ [n]) (assignFields key (Value.strs (current ++ [n])) kvs)
      (lookup_assignFields_self key _ kvs)
    simp [appendCapabilities, mapIndex, mapLookup, h, assertStrings, mapAssign, bind,
      Except.bind, hnext, assignFields_assignFields]

/-! ## The two halves of the defaulter -/

/-- Assignment into an empty map. -/
theorem assignFields_nil (k : String) (v : Value) : assignFields k v [] = [(k, v)] := rfl

/-- The append loop right after `capabilities[key] = []string{}`. -/
theorem appendCapabilities_fresh (key : String) (names : List String)
    (kvs : List (String × Value)) :
    appendCapabilities key names (some (assignFields key (Value.strs []) kvs))
      = Except.ok (some (assignFields key (Value.strs names) kvs)) := by
  have h := appendCapabilities_eq key names [] (assignFields key (Value.strs []) kvs)
    (lookup_assignFields_self key _ kvs)
  simpa [assignFields_assignFields] using h

/-- Lines 83-90 on the nil map: the assignment of line 84 panics. -/
theorem defaultPodSecurityContext_nil (d : SecurityDefaults) :
    defaultPodSecurityContext d none = Except.error Panic.assignNilMap := by
  simp [defaultPodSecurityContext, mapLookup, mapAssign, bind, Except.bind]

/-- Lines 83-90 when "podSecurityContext" is not set. -/
theorem defaultPodSecurityContext_absent (d : SecurityDefaults) (kvs : List (String × Value))
    (h : kvs.lookup "podSecurityContext" = none) :
    defaultPodSecurityContext d (some kvs) = Except.ok (some
      (assignFields "podSecurityContext" (Value.map (some (podSecurityContextAfter d [])))
        kvs)) := by
  simp [defaultPodSecurityContext, mapLookup, mapIndex, mapAssign, assertMap, bind, Except.bind, h,
    lookup_assignFields_self, assignFields_assignFields, podSecurityContextAfter, assignFields_nil]

/-- Lines 83-90 when "podSecurityContext" is set to a non-nil map. -/
theorem defaultPodSecurityContext_map (d : SecurityDefaults) (kvs psc : List (String × Value))
    (h : kvs.lookup "podSecurityContext" = some (Value.map (some psc))) :
    defaultPodSecurityContext d (some kvs) = Except.ok (some
      (assignFields "podSecurityContext" (Value.map (some (podSecurityContextAfter d psc)))
        kvs)) := by
  simp [defaultPodSecurityContext, mapLookup, mapIndex, mapAssign, assertMap, bind, Except.bind, h,
    lookup_assignFields_self, assignFields_assignFields, podSecurityContextAfter,
    assignFields_nil, pure, Except.pure]

/-- Lines 83-90 when "podSecurityContext" is set to a nil map: line 87 panics. -/
theorem defaultPodSecurityContext_nilMap (d : SecurityDefaults) (kvs : List (String × Value))
    (h : kvs.lookup "podSecurityContext" = some (Value.map none)) :
    defaultPodSecurityContext d (some kvs) = Except.error Panic.assignNilMap := by
  simp [defaultPodSecurityContext, mapLookup, mapIndex, mapAssign, assertMap, bind, Except.bind, h,
    pure, Except.pure]

/-- Lines 83-90 when "podSecurityContext" is set to a value that is not a map: the
assertion of line 86 panics. -/
theorem defaultPodSecurityContext_notMap (d : SecurityDefaults) (kvs : List (String × Value))
    (v : Value) (h : kvs.lookup "podSecurityContext" = some v) (hv : v.isMap = false) :
    defaultPodSecurityContext d (some kvs) = Except.error Panic.typeAssertion := by
  cases v <;>
  simp_all [defaultPodSecurityContext, mapLookup, mapIndex, mapAssign, assertMap, bind, Except.bind,
    pure, Except.pure, Value.isMap]

/-- Lines 92-111 on the nil map: the assignment of line 93 panics. -/
theorem defaultContainerSecurityContext_nil (d : SecurityDefaults) :
    defaultContainerSecurityContext d none = Except.error Panic.assignNilMap := by
  simp [defaultContainerSecurityContext, mapLookup, mapAssign, bind, Except.bind]

/-- Lines 100-111 on the empty map of line 98. -/
theorem defaultCapabilities_empty (d : SecurityDefaults) :
    defaultCapabilities d (some []) = Except.ok (some (capabilitiesAfter d)) := by
  unfold defaultCapabilities capabilitiesAfter
  by_cases hD : d.Drop.length ≠ 0 <;> by_cases hA : d.Add.length ≠ 0
  · simp only [if_pos hD, if_pos hA, mapAssign, bind, Except.bind, appendCapabilities_fresh]
    simp [assignFields]
  · simp only [if_pos hD, if_neg hA, mapAssign, bind, Except.bind, appendCapabilities_fresh,
      pure, Except.pure]
    simp [assignFields]
  · simp only [if_neg hD, if_pos hA, mapAssign, bind, Except.bind, appendCapabilities_fresh,
      pure, Except.pure]
    simp [assignFields]
  · simp only [if_neg hD, if_neg hA, bind, Except.bind, pure, Except.pure]
    simp

/-- Lines 92-111 when "containerSecurityContext" is not set. -/
theorem defaultContainerSecurityContext_absent (d : SecurityDefaults)
    (kvs : List (String × Value)) (h : kvs.lookup "containerSecurityContext" = none) :
    defaultContainerSecurityContext d (some kvs) = Except.ok (some
      (assignFields "containerSecurityContext"
        (Value.map (some (containerSecurityContextAfter d []))) kvs)) := by
  simp [defaultContainerSecurityContext, mapLookup, mapIndex, mapAssign, assertMap, bind,
    Except.bind, h, lookup_assignFields_self, assignFields_assignFields,
    containerSecurityContextAfter, pure, Except.pure, defaultCapabilities_empty]

/-- Lines 92-111 when "containerSecurityContext" is set to a non-nil map. -/
theorem defaultContainerSecurityContext_map (d : SecurityDefaults)
    (kvs csc : List (String × Value))
    (h : kvs.lookup "containerSecurityContext" = some (Value.map (some csc))) :
    defaultContainerSecurityContext d (some kvs) = Except.ok (some
      (assignFields "containerSecurityContext"
        (Value.map (some (containerSecurityContextAfter d csc))) kvs)) := by
  simp [defaultContainerSecurityContext, mapLookup, mapIndex, mapAssign, assertMap, bind,
    Except.bind, h, lookup_assignFields_self, assignFields_assignFields,
    containerSecurityContextAfter, pure, Except.pure, defaultCapabilities_empty]

/-- Lines 92-111 when "containerSecurityContext" is set to a nil map: line 96 panics. -/
theorem defaultContainerSecurityContext_nilMap (d : SecurityDefaults)
    (kvs : List (String × Value))
    (h : kvs.lookup "containerSecurityContext" = some (Value.map none)) :
    defaultContainerSecurityContext d (some kvs) = Except.error Panic.assignNilMap := by
  simp [defaultContainerSecurityContext, mapLookup, mapIndex, mapAssign, assertMap, bind,
    Except.bind, h, pure, Except.pure]

/-- Lines 92-111 when "containerSecurityContext" is set to a value that is not a map: the
assertion of line 95 panics. -/
theorem defaultContainerSecurityContext_notMap (d : SecurityDefaults)
    (kvs : List (String × Value)) (v : Value)
    (h : kvs.lookup "containerSecurityContext" = some v) (hv : v.isMap = false) :
    defaultContainerSecurityContext d (some kvs) = Except.error Panic.typeAssertion := by
  cases v <;>
  simp_all [defaultContainerSecurityContext, mapLookup, mapIndex, mapAssign, assertMap, bind,
    Except.bind, pure, Except.pure, Value.isMap]

/-! ## The result in closed form -/

/-- The outcome of the call on a non-nil `cfg` whose two keys are absent or non-nil maps. -/
theorem WithDefaultPodSecurityContext_eq (d : SecurityDefaults) (kvs : List (String × Value))
    (h : WellShaped (some kvs) = true) :
    WithDefaultPodSecurityContext d (some kvs) = Except.ok (some (configAfter d kvs)) := by
  have hne : "containerSecurityContext" ≠ "podSecurityContext" := by decide
  simp only [WellShaped, Option.isSome_some, Bool.true_and, Bool.and_eq_true,
    absentOrMutableMap, mapLookup] at h
  obtain ⟨hp, hc⟩ := h
  have hstep : defaultPodSecurityContext d (some kvs) = Except.ok (some
      (assignFields "podSecurityContext"
        (Value.map (some (podSecurityContextAfter d (subFields (some kvs) "podSecurityContext"))))
        kvs)) := by
    cases hl : kvs.lookup "podSecurityContext" with
    | none => simpa [subFields, mapLookup, hl] using defaultPodSecurityContext_absent d kvs hl
    | some v =>
      rw [hl] at hp
      cases v with
      | map m =>
        cases m with
        | none => simp [Value.isMutableMap] at hp
        | some psc =>
          simpa [subFields, mapLookup, hl] using defaultPodSecurityContext_map d kvs psc hl
      | _ => simp [Value.isMutableMap] at hp
  have hlook : ∀ w, (assignFields "podSecurityContext" w kvs).lookup "containerSecurityContext"
      = kvs.lookup "containerSecurityContext" :=
    fun w => lookup_assignFields_ne _ _ w kvs hne
  unfold WithDefaultPodSecurityContext configAfter
  simp only [hstep, bind, Except.bind]
  cases hl : kvs.lookup "containerSecurityContext" with
  | none =>
    simpa [subFields, mapLookup, hl] using
      defaultContainerSecurityContext_absent d _ ((hlook _).trans hl)
  | some v =>
    rw [hl] at hc
    cases v with
    | map m =>
      cases m with
      | none => simp [Value.isMutableMap] at hc
      | some csc =>
        simpa [subFields, mapLookup, hl] using
          defaultContainerSecurityContext_map d _ csc ((hlook _).trans hl)
    | _ => simp [Value.isMutableMap] at hc

/-- The pod security context of the result. -/
theorem lookup_configAfter_pod (d : SecurityDefaults) (kvs : List (String × Value)) :
    (configAfter d kvs).lookup "podSecurityContext" = some (Value.map (some
      (podSecurityContextAfter d (subFields (some kvs) "podSecurityContext")))) := by
  unfold configAfter
  rw [lookup_assignFields_ne _ _ _ _ (by decide), lookup_assignFields_self]

/-- The container security context of the result. -/
theorem lookup_configAfter_container (d : SecurityDefaults) (kvs : List (String × Value)) :
    (configAfter d kvs).lookup "containerSecurityContext" = some (Value.map (some
      (containerSecurityContextAfter d (subFields (some kvs) "containerSecurityContext")))) := by
  unfold configAfter
  rw [lookup_assignFields_self]

/-- The result of a call is well-shaped. -/
theorem wellShaped_configAfter (d : SecurityDefaults) (kvs : List (String × Value)) :
    WellShaped (some (configAfter d kvs)) = true := by
  simp [WellShaped, absentOrMutableMap, mapLookup, lookup_configAfter_pod,
    lookup_configAfter_container, Value.isMutableMap]

/-- The leaf `podSecurityContext.runAsNonRoot` of the result. -/
theorem getPath_runAsNonRoot (d : SecurityDefaults) (kvs : List (String × Value)) :
    getPath (Value.map (some (configAfter d kvs))) ["podSecurityContext", "runAsNonRoot"]
      = some (Value.bool d.RunAsNonRoot) := by
  simp only [getPath, mapLookup, lookup_configAfter_pod, podSecurityContextAfter]
  rw [lookup_assignFields_ne _ _ _ _ (by decide), lookup_assignFields_self]

/-- The block `podSecurityContext.seccompProfile` of the result. -/
theorem getPath_seccompProfile (d : SecurityDefaults) (kvs : List (String × Value)) :
    getPath (Value.map (some (configAfter d kvs))) ["podSecurityContext", "seccompProfile"]
      = some (Value.map (some [("type", Value.str d.SeccompProfileType)])) := by
  simp only [getPath, mapLookup, lookup_configAfter_pod, podSecurityContextAfter]
  rw [lookup_assignFields_self]

/-- The leaf `podSecurityContext.seccompProfile.type` of the result. -/
theorem getPath_seccompProfile_type (d : SecurityDefaults) (kvs : List (String × Value)) :
    getPath (Value.map (some (configAfter d kvs)))
        ["podSecurityContext", "seccompProfile", "type"]
      = some (Value.str d.SeccompProfileType) := by
  simp only [getPath, mapLookup, lookup_configAfter_pod, podSecurityContextAfter]
  rw [lookup_assignFields_self]
  rfl

/-- The leaf `containerSecurityContext.allowPrivilegeEscalation` of the result. -/
theorem getPath_allowPrivilegeEscalation (d : SecurityDefaults) (kvs : List (String × Value)) :
    getPath (Value.map (some (configAfter d kvs)))
        ["containerSecurityContext", "allowPrivilegeEscalation"]
      = some (Value.bool d.AllowPrivilegeEscalation) := by
  simp only [getPath, mapLookup, lookup_configAfter_container, containerSecurityContextAfter]
  rw [lookup_assignFields_ne _ _ _ _ (by decide), lookup_assignFields_self]

/-- The block `containerSecurityContext.capabilities` of the result. -/
theorem getPath_capabilities (d : SecurityDefaults) (kvs : List (String × Value)) :
    getPath (Value.map (some (configAfter d kvs))) ["containerSecurityContext", "capabilities"]
      = some (Value.map (some (capabilitiesAfter d))) := by
  simp only [getPath, mapLookup, lookup_configAfter_container, containerSecurityContextAfter]
  rw [lookup_assignFields_self]

/-- A value read from a map is absent or a non-nil map, or a nil map, or not a map. -/
theorem lookup_trichotomy (o : Option Value) :
    (o = none ∨ ∃ kvs, o = some (Value.map (some kvs))) ∨ o = some (Value.map none) ∨
      ∃ v, o = some v ∧ v.isMap = false := by
  cases o with
  | none => exact Or.inl (Or.inl rfl)
  | some v =>
    cases v with
    | map m =>
      cases m with
      | none => exact Or.inr (Or.inl rfl)
      | some kvs => exact Or.inl (Or.inr ⟨kvs, rfl⟩)
    | null => exact Or.inr (Or.inr ⟨_, rfl, rfl⟩)
    | bool b => exact Or.inr (Or.inr ⟨_, rfl, rfl⟩)
    | str s => exact Or.inr (Or.inr ⟨_, rfl, rfl⟩)
    | strs l => exact Or.inr (Or.inr ⟨_, rfl, rfl⟩)
    | other t => exact Or.inr (Or.inr ⟨_, rfl, rfl⟩)

/-- Lines 83-90 on a non-nil `cfg` whose pod security context is absent or a non-nil map. -/
theorem defaultPodSecurityContext_eq (d : SecurityDefaults) (kvs : List (String × Value))
    (h : kvs.lookup "podSecurityContext" = none ∨
      ∃ psc, kvs.lookup "podSecurityContext" = some (Value.map (some psc))) :
    defaultPodSecurityContext d (some kvs) = Except.ok (some
      (assignFields "podSecurityContext"
        (Value.map (some (podSecurityContextAfter d (subFields (some kvs) "podSecurityContext"))))
        kvs)) := by
  rcases h with hl | ⟨psc, hl⟩
  · simpa [subFields, mapLookup, hl] using defaultPodSecurityContext_absent d kvs hl
  · simpa [subFields, mapLookup, hl] using defaultPodSecurityContext_map d kvs psc hl

/-- The outcome of the call, case by case on what the two keys hold. -/
theorem WithDefaultPodSecurityContext_cases (d : SecurityDefaults)
    (kvs : List (String × Value)) :
    (kvs.lookup "podSecurityContext" = some (Value.map none) →
      WithDefaultPodSecurityContext d (some kvs) = Except.error Panic.assignNilMap) ∧
    (∀ v, kvs.lookup "podSecurityContext" = some v → v.isMap = false →
      WithDefaultPodSecurityContext d (some kvs) = Except.error Panic.typeAssertion) ∧
    ((kvs.lookup "podSecurityContext" = none ∨
        ∃ psc, kvs.lookup "podSecurityContext" = some (Value.map (some psc))) →
      (kvs.lookup "containerSecurityContext" = some (Value.map none) →
        WithDefaultPodSecurityContext d (some kvs) = Except.error Panic.assignNilMap) ∧
      (∀ v, kvs.lookup "containerSecurityContext" = some v → v.isMap = false →
        WithDefaultPodSecurityContext d (some kvs) = Except.error Panic.typeAssertion) ∧
      ((kvs.lookup "containerSecurityContext" = none ∨
          ∃ csc, kvs.lookup "containerSecurityContext" = some (Value.map (some csc))) →
        WithDefaultPodSecurityContext d (some kvs) = Except.ok (some (configAfter d kvs)))) := by
  have hne : "containerSecurityContext" ≠ "podSecurityContext" := by decide
  have hlook : ∀ w, (assignFields "podSecurityContext" w kvs).lookup "containerSecurityContext"
      = kvs.lookup "containerSecurityContext" :=
    fun w => lookup_assignFields_ne _ _ w kvs hne
  refine ⟨?_, ?_, ?_⟩
  · intro hl
    simp [WithDefaultPodSecurityContext, defaultPodSecurityContext_nilMap d kvs hl, bind,
      Except.bind]
  · intro v hl hv
    simp [WithDefaultPodSecurityContext, defaultPodSecurityContext_notMap d kvs v hl hv, bind,
      Except.bind]
  · intro hp
    have hstep := defaultPodSecurityContext_eq d kvs hp
    refine ⟨?_, ?_, ?_⟩
    · intro hl
      simp [WithDefaultPodSecurityContext, hstep, bind, Except.bind,
        defaultContainerSecurityContext_nilMap d _ ((hlook _).trans hl)]
    · intro v hl hv
      simp [WithDefaultPodSecurityContext, hstep, bind, Except.bind,
        defaultContainerSecurityContext_notMap d _ v ((hlook _).trans hl) hv]
    · intro hc
      apply WithDefaultPodSecurityContext_eq
      rcases hp with hp | ⟨psc, hp⟩ <;> rcases hc with hc | ⟨csc, hc⟩ <;>
        simp [WellShaped, absentOrMutableMap, mapLookup, hp, hc, Value.isMutableMap]

/-! ## The defaulter -/

/-- A well-shaped configuration is a non-nil map. -/
theorem wellShaped_exists_fields {cfg : GoMap} (h : WellShaped cfg = true) :
    ∃ kvs, cfg = some kvs := by
  cases cfg with
  | none => simp [WellShaped] at h
  | some kvs => exact ⟨kvs, rfl⟩

/-- C6, as amended: on every well-shaped `cfg` (a non-nil mapping in which each of
"podSecurityContext" and "containerSecurityContext" is absent or a non-nil mapping, whatever
these hold already) the call completes, and afterwards `podSecurityContext.runAsNonRoot` is
true, `podSecurityContext.seccompProfile.type` is "RuntimeDefault" and
`containerSecurityContext.allowPrivilegeEscalation` is false, for every pair of default
capability lists. -/
theorem WithDefaultPodSecurityContext_sets_defaults (drop add : List String) (cfg : GoMap)
    (h : WellShaped cfg = true) :
    ∃ cfg' : GoMap,
      WithDefaultPodSecurityContext (specDefaults drop add) cfg = Except.ok cfg' ∧
      getPath (Value.map cfg') ["podSecurityContext", "runAsNonRoot"]
        = some (Value.bool true) ∧
      getPath (Value.map cfg') ["podSecurityContext", "seccompProfile", "type"]
        = some (Value.str "RuntimeDefault") ∧
      getPath (Value.map cfg') ["containerSecurityContext", "allowPrivilegeEscalation"]
        = some (Value.bool false) := by
  obtain ⟨kvs, rfl⟩ := wellShaped_exists_fields h
  exact ⟨_, WithDefaultPodSecurityContext_eq _ kvs h, getPath_runAsNonRoot _ kvs,
    getPath_seccompProfile_type _ kvs, getPath_allowPrivilegeEscalation _ kvs⟩

/-- C6 at the empty configuration: the result is spelled out, and the three leaves hold the
defaults. -/
theorem WithDefaultPodSecurityContext_sets_defaults_witness :
    WithDefaultPodSecurityContext (specDefaults ["ALL"] []) (some []) =
        Except.ok (some
          [("podSecurityContext", Value.map (some
              [("runAsNonRoot", Value.bool true),
                ("seccompProfile", Value.map (some [("type", Value.str "RuntimeDefault")]))])),
            ("containerSecurityContext", Value.map (some
              [("allowPrivilegeEscalation", Value.bool false),
                ("capabilities", Value.map (some [("drop", Value.strs ["ALL"])]))]))]) ∧
      ∃ cfg' : GoMap,
        WithDefaultPodSecurityContext (specDefaults ["ALL"] []) (some []) = Except.ok cfg' ∧
        getPath (Value.map cfg') ["podSecurityContext", "runAsNonRoot"]
          = some (Value.bool true) ∧
        getPath (Value.map cfg') ["podSecurityContext", "seccompProfile", "type"]
          = some (Value.str "RuntimeDefault") ∧
        getPath (Value.map cfg') ["containerSecurityContext", "allowPrivilegeEscalation"]
          = some (Value.bool false) :=
  ⟨rfl, WithDefaultPodSecurityContext_sets_defaults ["ALL"] [] (some []) rfl⟩

/-- C6 fails as stated: in a configuration whose "containerSecurityContext" is a nil
`map[string]interface{}` each of the two keys is absent or a mapping, yet the call does not
complete: the nil map passes the assertion of line 95 and line 96 panics on the assignment
into it, so `allowPrivilegeEscalation` is never set. -/
theorem WithDefaultPodSecurityContext_nil_container :
    absentOrMap (some [("containerSecurityContext", Value.map none)]) "podSecurityContext"
        = true ∧
      absentOrMap (some [("containerSecurityContext", Value.map none)])
        "containerSecurityContext" = true ∧
      WithDefaultPodSecurityContext (specDefaults ["ALL"] [])
        (some [("containerSecurityContext", Value.map none)])
        = Except.error Panic.assignNilMap ∧
      ¬ ∃ cfg', WithDefaultPodSecurityContext (specDefaults ["ALL"] [])
        (some [("containerSecurityContext", Value.map none)]) = Except.ok cfg' := by
  have h : WithDefaultPodSecurityContext (specDefaults ["ALL"] [])
      (some [("containerSecurityContext", Value.map none)])
      = Except.error Panic.assignNilMap := rfl
  refine ⟨rfl, rfl, h, ?_⟩
  rw [h]
  simp

/-- C7 fails as stated: in a configuration whose pod security context already holds
`runAsNonRoot = false`, the call replaces that value by true. -/
theorem WithDefaultPodSecurityContext_overwrites :
    getPath (Value.map (some
        [("podSecurityContext", Value.map (some [("runAsNonRoot", Value.bool false)]))]))
        ["podSecurityContext", "runAsNonRoot"] = some (Value.bool false) ∧
      WithDefaultPodSecurityContext (specDefaults ["ALL"] []) (some
        [("podSecurityContext", Value.map (some [("runAsNonRoot", Value.bool false)]))]) =
        Except.ok (some
          [("podSecurityContext", Value.map (some
              [("runAsNonRoot", Value.bool true),
                ("seccompProfile", Value.map (some [("type", Value.str "RuntimeDefault")]))])),
            ("containerSecurityContext", Value.map (some
              [("allowPrivilegeEscalation", Value.bool false),
                ("capabilities", Value.map (some [("drop", Value.strs ["ALL"])]))]))]) ∧
      getPath (Value.map (some
          [("podSecurityContext", Value.map (some
              [("runAsNonRoot", Value.bool true),
                ("seccompProfile", Value.map (some [("type", Value.str "RuntimeDefault")]))])),
            ("containerSecurityContext", Value.map (some
              [("allowPrivilegeEscalation", Value.bool false),
                ("capabilities", Value.map (some [("drop", Value.strs ["ALL"])]))]))]))
        ["podSecurityContext", "runAsNonRoot"] = some (Value.bool true) ∧
      Value.bool true ≠ Value.bool false :=
  ⟨rfl, rfl, rfl, by simp⟩

/-- The content of the `capabilities` map, key by key. -/
theorem lookup_capabilitiesAfter (d : SecurityDefaults) :
    (d.Drop ≠ [] → (capabilitiesAfter d).lookup "drop" = some (Value.strs d.Drop)) ∧
    (d.Drop = [] → (capabilitiesAfter d).lookup "drop" = none) ∧
    (d.Add ≠ [] → (capabilitiesAfter d).lookup "add" = some (Value.strs d.Drop)) ∧
    (d.Add = [] → (capabilitiesAfter d).lookup "add" = none) ∧
    (∀ k, k ≠ "drop" → k ≠ "add" → (capabilitiesAfter d).lookup k = none) := by
  have hda : ("drop" == "add") = false := by decide
  have had : ("add" == "drop") = false := by decide
  refine ⟨?_, ?_, ?_, ?_, ?_⟩
  · intro h
    simp [capabilitiesAfter, h, List.lookup]
  · intro h
    by_cases hA : d.Add = [] <;> simp [capabilitiesAfter, h, hA, List.lookup, hda]
  · intro h
    by_cases hD : d.Drop = [] <;> simp [capabilitiesAfter, h, hD, List.lookup, had]
  · intro h
    by_cases hD : d.Drop = [] <;> simp [capabilitiesAfter, h, hD, List.lookup, had]
  · intro k h1 h2
    have e1 : (k == "drop") = false := by simpa using h1
    have e2 : (k == "add") = false := by simpa using h2
    by_cases hD : d.Drop = [] <;> by_cases hA : d.Add = [] <;>
      simp [capabilitiesAfter, hD, hA, List.lookup, e1, e2]

/-- C8: for all defaults, in particular every default drop list `d.Drop` and add list
`d.Add`, and every well-shaped `cfg`, the call completes and afterwards
`containerSecurityContext.capabilities` is a map `caps` that depends on the defaults alone;
"drop" is set in it exactly when `d.Drop` is not empty and then holds the names of
`d.Drop` in order; "add" is set in it exactly when `d.Add` is not empty and then holds the
names of `d.Drop` in order, not those of `d.Add`; no other key is set in it. -/
theorem WithDefaultPodSecurityContext_capabilities (d : SecurityDefaults) (cfg : GoMap)
    (h : WellShaped cfg = true) :
    ∃ (cfg' : GoMap) (caps : List (String × Value)),
      WithDefaultPodSecurityContext d cfg = Except.ok cfg' ∧
      getPath (Value.map cfg') ["containerSecurityContext", "capabilities"]
        = some (Value.map (some caps)) ∧
      caps = capabilitiesAfter d ∧
      (d.Drop ≠ [] → caps.lookup "drop" = some (Value.strs d.Drop)) ∧
      (d.Drop = [] → caps.lookup "drop" = none) ∧
      (d.Add ≠ [] → caps.lookup "add" = some (Value.strs d.Drop)) ∧
      (d.Add = [] → caps.lookup "add" = none) ∧
      (∀ k, k ≠ "drop" → k ≠ "add" → caps.lookup k = none) := by
  obtain ⟨kvs, rfl⟩ := wellShaped_exists_fields h
  exact ⟨_, _, WithDefaultPodSecurityContext_eq d kvs h, getPath_capabilities d kvs, rfl,
    lookup_capabilitiesAfter d⟩

/-- C8 with the drop list `ALL` and the add list `NET_BIND_SERVICE`, on a configuration
whose capabilities already hold an add list and another key: afterwards the map holds
"drop" and "add" alone, both with the names of the drop list. -/
theorem WithDefaultPodSecurityContext_capabilities_witness :
    ∃ cfg' : GoMap,
      WithDefaultPodSecurityContext (specDefaults ["ALL"] ["NET_BIND_SERVICE"])
        (some
          [("containerSecurityContext", Value.map (some
              [("capabilities", Value.map (some
                  [("add", Value.strs ["SYS_ADMIN"]), ("keep", Value.bool true)]))]))])
        = Except.ok cfg' ∧
      getPath (Value.map cfg') ["containerSecurityContext", "capabilities"]
        = some (Value.map (some
            [("drop", Value.strs ["ALL"]), ("add", Value.strs ["ALL"])])) := by
  obtain ⟨cfg', caps, hcall, hcaps, hfresh, -⟩ :=
    WithDefaultPodSecurityContext_capabilities (specDefaults ["ALL"] ["NET_BIND_SERVICE"])
      (some
        [("containerSecurityContext", Value.map (some
            [("capabilities", Value.map (some
                [("add", Value.strs ["SYS_ADMIN"]), ("keep", Value.bool true)]))]))]) rfl
  subst hfresh
  exact ⟨cfg', hcall, hcaps⟩

/-- C9: on every well-shaped `cfg` the call completes, a second call on the result
completes too, and the three leaves `podSecurityContext.runAsNonRoot`,
`podSecurityContext.seccompProfile.type` and
`containerSecurityContext.allowPrivilegeEscalation` hold after the second call what they
held after the first, namely the defaults. -/
theorem WithDefaultPodSecurityContext_idempotent_leaves (d : SecurityDefaults) (cfg : GoMap)
    (h : WellShaped cfg = true) :
    ∃ once twice : GoMap,
      WithDefaultPodSecurityContext d cfg = Except.ok once ∧
      WithDefaultPodSecurityContext d once = Except.ok twice ∧
      getPath (Value.map twice) ["podSecurityContext", "runAsNonRoot"]
        = getPath (Value.map once) ["podSecurityContext", "runAsNonRoot"] ∧
      getPath (Value.map twice) ["podSecurityContext", "seccompProfile", "type"]
        = getPath (Value.map once) ["podSecurityContext", "seccompProfile", "type"] ∧
      getPath (Value.map twice) ["containerSecurityContext", "allowPrivilegeEscalation"]
        = getPath (Value.map once) ["containerSecurityContext", "allowPrivilegeEscalation"] ∧
      getPath (Value.map once) ["podSecurityContext", "runAsNonRoot"]
        = some (Value.bool d.RunAsNonRoot) ∧
      getPath (Value.map once) ["podSecurityContext", "seccompProfile", "type"]
        = some (Value.str d.SeccompProfileType) ∧
      getPath (Value.map once) ["containerSecurityContext", "allowPrivilegeEscalation"]
        = some (Value.bool d.AllowPrivilegeEscalation) := by
  obtain ⟨kvs, rfl⟩ := wellShaped_exists_fields h
  refine ⟨_, _, WithDefaultPodSecurityContext_eq d kvs h,
    WithDefaultPodSecurityContext_eq d (configAfter d kvs) (wellShaped_configAfter d kvs),
    ?_, ?_, ?_, getPath_runAsNonRoot d kvs, getPath_seccompProfile_type d kvs,
    getPath_allowPrivilegeEscalation d kvs⟩
  · rw [getPath_runAsNonRoot, getPath_runAsNonRoot]
  · rw [getPath_seccompProfile_type, getPath_seccompProfile_type]
  · rw [getPath_allowPrivilegeEscalation, getPath_allowPrivilegeEscalation]

/-- C9 at a configuration whose pod security context holds other values at the leaves. -/
theorem WithDefaultPodSecurityContext_idempotent_leaves_witness :
    ∃ once twice : GoMap,
      WithDefaultPodSecurityContext (specDefaults ["ALL"] [])
        (some
          [("podSecurityContext", Value.map (some
              [("runAsNonRoot", Value.bool false),
                ("seccompProfile", Value.map (some [("type", Value.str "Unconfined")]))]))])
        = Except.ok once ∧
      WithDefaultPodSecurityContext (specDefaults ["ALL"] []) once = Except.ok twice ∧
      getPath (Value.map twice) ["podSecurityContext", "runAsNonRoot"]
        = some (Value.bool true) ∧
      getPath (Value.map twice) ["podSecurityContext", "seccompProfile", "type"]
        = some (Value.str "RuntimeDefault") ∧
      getPath (Value.map twice) ["containerSecurityContext", "allowPrivilegeEscalation"]
        = some (Value.bool false) := by
  obtain ⟨once, twice, h1, h2, e1, e2, e3, v1, v2, v3⟩ :=
    WithDefaultPodSecurityContext_idempotent_leaves (specDefaults ["ALL"] [])
      (some
        [("podSecurityContext", Value.map (some
            [("runAsNonRoot", Value.bool false),
              ("seccompProfile", Value.map (some [("type", Value.str "Unconfined")]))]))]) rfl
  exact ⟨once, twice, h1, h2, e1.trans v1, e2.trans v2, e3.trans v3⟩

/-- A value that is not a map is not a non-nil map either, and is not the nil map. -/
theorem not_isMap (v : Value) (hv : v.isMap = false) :
    v.isMutableMap = false ∧ v ≠ Value.map none := by
  cases v <;> simp_all [Value.isMap, Value.isMutableMap]

/-- C10 fails as stated: a configuration whose "podSecurityContext" is a nil
`map[string]interface{}` passes the type assertion of line 86 and panics at line 87 on the
assignment into the nil map, so the call neither completes nor fails on a type assertion,
whether or not a nil map counts as a mapping; the nil configuration, in which both keys are
absent, panics in the same way at line 84. -/
theorem WithDefaultPodSecurityContext_nil_map :
    absentOrMap (some [("podSecurityContext", Value.map none)]) "podSecurityContext" = true ∧
      absentOrMap (some [("podSecurityContext", Value.map none)]) "containerSecurityContext"
        = true ∧
      WithDefaultPodSecurityContext (specDefaults ["ALL"] [])
        (some [("podSecurityContext", Value.map none)]) = Except.error Panic.assignNilMap ∧
      WithDefaultPodSecurityContext (specDefaults ["ALL"] [])
        (some [("podSecurityContext", Value.map none)]) ≠ Except.error Panic.typeAssertion ∧
      (¬ ∃ cfg', WithDefaultPodSecurityContext (specDefaults ["ALL"] [])
        (some [("podSecurityContext", Value.map none)]) = Except.ok cfg') ∧
      absentOrMap none "podSecurityContext" = true ∧
      absentOrMap none "containerSecurityContext" = true ∧
      WithDefaultPodSecurityContext (specDefaults ["ALL"] []) none
        = Except.error Panic.assignNilMap := by
  have h : WithDefaultPodSecurityContext (specDefaults ["ALL"] [])
      (some [("podSecurityContext", Value.map none)]) = Except.error Panic.assignNilMap := rfl
  refine ⟨rfl, rfl, h, ?_, ?_, rfl, rfl, rfl⟩
  · rw [h]
    simp
  · rw [h]
    simp

/-- C10, as amended: the three outcomes of the call, for all defaults and every `cfg`.

* It panics on a type assertion exactly when `cfg` is not nil and either
  "podSecurityContext" is set to a value that is not a map, or "podSecurityContext" is
  absent or a non-nil map and "containerSecurityContext" is set to a value that is not a map.
* It completes exactly when `cfg` is well-shaped: not nil, with each of the two keys absent
  or a non-nil map. So on such a `cfg` none of the assertions of the function fails.
* It panics on an assignment into a nil map exactly when `cfg` is nil, or
  "podSecurityContext" is set to a nil map, or "podSecurityContext" is absent or a non-nil
  map and "containerSecurityContext" is set to a nil map. -/
theorem WithDefaultPodSecurityContext_outcomes (d : SecurityDefaults) (cfg : GoMap) :
    (WithDefaultPodSecurityContext d cfg = Except.error Panic.typeAssertion ↔
      cfg.isSome = true ∧
        (presentNotMap cfg "podSecurityContext" = true ∨
          (absentOrMutableMap cfg "podSecurityContext" = true ∧
            presentNotMap cfg "containerSecurityContext" = true))) ∧
    ((∃ cfg', WithDefaultPodSecurityContext d cfg = Except.ok cfg') ↔ WellShaped cfg = true) ∧
    (WithDefaultPodSecurityContext d cfg = Except.error Panic.assignNilMap ↔
      cfg = none ∨ mapLookup cfg "podSecurityContext" = some (Value.map none) ∨
        (absentOrMutableMap cfg "podSecurityContext" = true ∧
          mapLookup cfg "containerSecurityContext" = some (Value.map none))) := by
  cases cfg with
  | none =>
    have hW : WithDefaultPodSecurityContext d none = Except.error Panic.assignNilMap := by
      simp [WithDefaultPodSecurityContext, defaultPodSecurityContext_nil, bind, Except.bind]
    simp [hW, WellShaped]
  | some kvs =>
    obtain ⟨c1, c2, c3⟩ := WithDefaultPodSecurityContext_cases d kvs
    have m1 : ∀ f, (Value.map (some f)).isMutableMap = true := fun _ => rfl
    have m2 : ∀ m, (Value.map m).isMap = true := fun _ => rfl
    have m3 : (Value.map none).isMutableMap = false := rfl
    rcases lookup_trichotomy (kvs.lookup "podSecurityContext") with hp | hp | ⟨v, hp, hv⟩
    · obtain ⟨c4, c5, c6⟩ := c3 hp
      rcases lookup_trichotomy (kvs.lookup "containerSecurityContext") with
        hc | hc | ⟨w, hc, hw⟩
      · have hW := c6 hc
        rcases hp with hp | ⟨psc, hp⟩ <;> rcases hc with hc | ⟨csc, hc⟩ <;>
          simp [hW, WellShaped, absentOrMutableMap, presentNotMap, mapLookup, hp, hc,
            Value.isMutableMap, Value.isMap]
      · have hW := c4 hc
        rcases hp with hp | ⟨psc, hp⟩ <;>
          simp [hW, WellShaped, absentOrMutableMap, presentNotMap, mapLookup, hp, hc,
            Value.isMutableMap, Value.isMap]
      · have hW := c5 w hc hw
        obtain ⟨hw1, hw2⟩ := not_isMap w hw
        rcases hp with hp | ⟨psc, hp⟩ <;>
          simp [hW, WellShaped, absentOrMutableMap, presentNotMap, mapLookup, hp, hc,
            m1, m2, m3, hw, hw1, hw2]
    · have hW := c1 hp
      simp [hW, WellShaped, absentOrMutableMap, presentNotMap, mapLookup, hp,
        Value.isMutableMap, Value.isMap]
    · have hW := c2 v hp hv
      obtain ⟨hv1, hv2⟩ := not_isMap v hv
      simp [hW, WellShaped, absentOrMutableMap, presentNotMap, mapLookup, hp,
        m1, m2, m3, hv, hv1, hv2]

/-! ## The pod reference -/

/-- Up to the first slash of `l ++ '/' :: r`, when `l` holds none, stands `l`. -/
theorem takeWhile_slash (l r : List Char) (h : '/' ∉ l) :
    (l ++ '/' :: r).takeWhile (fun c => c ≠ '/') = l := by
  induction l with
  | nil => simp
  | cons c l ih =>
    have hc : c ≠ '/' := fun e => h (by simp [e])
    have hl : '/' ∉ l := fun e => h (List.mem_cons_of_mem c e)
    simpa [List.takeWhile, hc] using ih hl

/-- From the first slash of `l ++ '/' :: r` on, when `l` holds none, stands `'/' :: r`. -/
theorem dropWhile_slash (l r : List Char) (h : '/' ∉ l) :
    (l ++ '/' :: r).dropWhile (fun c => c ≠ '/') = '/' :: r := by
  induction l with
  | nil => simp
  | cons c l ih =>
    have hc : c ≠ '/' := fun e => h (by simp [e])
    have hl : '/' ∉ l := fun e => h (List.mem_cons_of_mem c e)
    simpa [List.dropWhile, hc] using ih hl

/-- Parsing the printed group and version of a kind gives them back, when the version is not
empty and neither holds a slash. -/
theorem ParseGroupVersion_groupVersionString (gvk : GroupVersionKind)
    (hv : gvk.Version ≠ "") (hg : '/' ∉ gvk.Group.data) (hs : '/' ∉ gvk.Version.data) :
    ParseGroupVersion gvk.groupVersionString = Except.ok (gvk.Group, gvk.Version) := by
  obtain ⟨⟨g⟩, ⟨v⟩, kind⟩ := gvk
  simp only at hv hg hs
  have hv0 : v ≠ [] := fun e => hv (by rw [e])
  by_cases hlen : g = []
  · subst hlen
    have hne : (String.mk v) ≠ "/" := by
      intro e
      have : v = ['/'] := by simpa using congrArg String.data e
      exact hs (by simp [this])
    have hcount : v.count '/' = 0 := List.count_eq_zero.mpr hs
    simp [GroupVersionKind.groupVersionString, ParseGroupVersion, hv0, hne, hcount, String.length]
  · have hdata : (String.mk g ++ "/" ++ String.mk v).data = g ++ '/' :: v := by
      simp [String.data_append]
    have hne : (String.mk g ++ "/" ++ String.mk v) ≠ "/" := by
      intro e
      have h2 : g ++ '/' :: v = ['/'] := by
        rw [← hdata, e]
      cases g with
      | nil => exact hlen rfl
      | cons c g =>
        have h3 := congrArg List.length h2
        simp at h3
    have hlen2 : (String.mk g ++ "/" ++ String.mk v).length ≠ 0 := by
      show (String.mk g ++ "/" ++ String.mk v).data.length ≠ 0
      rw [hdata]
      simp
    have hcount : (g ++ '/' :: v).count '/' = 1 := by
      simp [List.count_append, List.count_cons, List.count_eq_zero.mpr hg,
        List.count_eq_zero.mpr hs]
    have hpos : 0 < (String.mk g).length := by
      simpa [String.length] using List.length_pos.mpr hlen
    simp only [GroupVersionKind.groupVersionString, ParseGroupVersion, gt_iff_lt, hpos, if_true,
      hlen2, hne, or_self, if_false, hdata, hcount, takeWhile_slash g v hg,
      dropWhile_slash g v hg]
    simp

/-- A pod kind prints as its group and version and the name `Pod`, and the group and version
so printed are not the empty text. -/
theorem ToAPIVersionAndKind_podKind (kind : GroupVersionKind) (h : kind.IsPodKind) :
    kind.ToAPIVersionAndKind = (kind.groupVersionString, "Pod") ∧
      kind.groupVersionString ≠ "" := by
  obtain ⟨hk, hv, -, -⟩ := h
  obtain ⟨⟨g⟩, ⟨v⟩, ⟨k⟩⟩ := kind
  simp only at hk hv
  have hk0 : k ≠ [] := by
    intro e
    rw [e] at hk
    exact absurd hk (by decide)
  constructor
  · simp [GroupVersionKind.ToAPIVersionAndKind, GroupVersionKind.Empty, hk, hk0, String.length]
  · by_cases hg : g = []
    · subst hg
      simpa [GroupVersionKind.groupVersionString, String.length] using hv
    · have hpos : 0 < (String.mk g).length := by
        simpa [String.length] using List.length_pos.mpr hg
      simp only [GroupVersionKind.groupVersionString, gt_iff_lt, hpos, if_true]
      intro e
      have h2 := congrArg String.data e
      simp [String.data_append] at h2

/-- The reference `kmeta.ObjectReference` builds from a pod stamped with a pod kind. -/
theorem kmetaObjectReference_podKind (kind : GroupVersionKind) (h : kind.IsPodKind)
    (pod : Pod) :
    kmetaObjectReference ⟨kind.groupVersionString, "Pod"⟩ pod =
      { Kind := "Pod", Namespace := pod.Namespace, Name := pod.Name, UID := "",
        APIVersion := kind.groupVersionString, ResourceVersion := "", FieldPath := "" } := by
  have hparse := ParseGroupVersion_groupVersionString kind h.2.1 h.2.2.1 h.2.2.2
  have hprint := (ToAPIVersionAndKind_podKind kind h).1
  have hkind : (⟨kind.Group, kind.Version, "Pod"⟩ : GroupVersionKind) = kind := by
    obtain ⟨g, v, k⟩ := kind
    have hk : k = "Pod" := h.1
    simp [hk]
  simp [kmetaObjectReference, FromAPIVersionAndKind, hparse, hkind, hprint]

/-- C11: for every namespace `ns` and name `name`,

* when registering the core types succeeds and the scheme resolves the pod to a kind list
  that starts with a pod kind, `PodReference` returns no error and a reference with that
  name and namespace, the kind `Pod`, and a non-empty API version, which is the one the
  first resolved kind prints as; the remaining fields of the reference are empty;
* when registration fails, or resolution fails, or the resolved kind list is empty, it
  returns the error (for the empty list, "want len(kinds) > 0") together with the zero
  `ObjectReference`. -/
theorem PodReference_outcomes (lib : SchemeLib) (ns name : String) :
    (∀ (kind : GroupVersionKind) (rest : List GroupVersionKind),
      lib.AddToScheme = none →
      lib.ObjectKinds ⟨name, ns, ⟨[]⟩⟩ = Except.ok (kind :: rest) →
      kind.IsPodKind →
      ∃ ref : ObjectReference,
        PodReference lib ns name = (ref, none) ∧
        ref.Name = name ∧ ref.Namespace = ns ∧ ref.Kind = "Pod" ∧
        ref.APIVersion = kind.ToAPIVersionAndKind.1 ∧ ref.APIVersion ≠ "" ∧
        ref.UID = "" ∧ ref.ResourceVersion = "" ∧ ref.FieldPath = "") ∧
    (∀ err : String, lib.AddToScheme = some err →
      PodReference lib ns name = (ObjectReference.zero, some err)) ∧
    (∀ err : String, lib.AddToScheme = none →
      lib.ObjectKinds ⟨name, ns, ⟨[]⟩⟩ = Except.error err →
      PodReference lib ns name = (ObjectReference.zero, some err)) ∧
    (lib.AddToScheme = none → lib.ObjectKinds ⟨name, ns, ⟨[]⟩⟩ = Except.ok [] →
      PodReference lib ns name = (ObjectReference.zero, some "want len(kinds) > 0")) := by
  refine ⟨?_, ?_, ?_, ?_⟩
  · intro kind rest hreg hkinds hpod
    obtain ⟨hprint, hne⟩ := ToAPIVersionAndKind_podKind kind hpod
    refine ⟨ObjectReference.mk "Pod" ns name "" kind.groupVersionString "" "", ?_, ?_⟩
    · simp only [PodReference, hreg, hkinds]
      simp [hprint, kmetaObjectReference_podKind kind hpod]
    · simp [hprint, hne]
  · intro err hreg
    simp [PodReference, hreg]
  · intro err hreg hkinds
    simp [PodReference, hreg, hkinds]
  · intro hreg hkinds
    simp [PodReference, hreg, hkinds]

/-- C11 at the scheme of the core API group, namespace `ns1` and name `pod1`: the reference
names the pod `pod1` of namespace `ns1`, of kind `Pod` and API version `v1`. -/
theorem PodReference_outcomes_witness :
    PodReference coreScheme "ns1" "pod1" =
      ({ Kind := "Pod", Namespace := "ns1", Name := "pod1", UID := "", APIVersion := "v1",
         ResourceVersion := "", FieldPath := "" }, none) := by
  obtain ⟨ref, hcall, hname, hns, hkind, hversion, -, huid, hrv, hfp⟩ :=
    (PodReference_outcomes coreScheme "ns1" "pod1").1 ⟨"", "v1", "Pod"⟩ [] rfl rfl (by decide)
  obtain ⟨k, n, m, u, a, r, f⟩ := ref
  simp only at hname hns hkind hversion huid hrv hfp
  subst hname hns hkind huid hrv hfp
  rw [hcall, hversion]
  rfl

/-! ## Replaced blocks and idempotence of the defaulter -/

/-- The keys of the `capabilities` map are among "drop" and "add". -/
theorem keys_capabilitiesAfter (d : SecurityDefaults) :
    ∀ k ∈ mapKeys (some (capabilitiesAfter d)), k = "drop" ∨ k = "add" := by
  intro k hk
  by_cases hD : d.Drop = [] <;> by_cases hA : d.Add = [] <;>
    simp_all [mapKeys, capabilitiesAfter]

/-- C13: on every well-shaped `cfg` the call completes, and afterwards
`podSecurityContext.seccompProfile` is a map whose only key is "type", bound to the default
profile type, and `containerSecurityContext.capabilities` is the map fixed by the defaults
(its keys are among "drop" and "add"), whatever the two keys held before: on any other
well-shaped configuration the call leaves the same two values there. -/
theorem WithDefaultPodSecurityContext_replaces_blocks (d : SecurityDefaults) (cfg : GoMap)
    (h : WellShaped cfg = true) :
    ∃ (cfg' : GoMap) (seccompProfile capabilities : List (String × Value)),
      WithDefaultPodSecurityContext d cfg = Except.ok cfg' ∧
      getPath (Value.map cfg') ["podSecurityContext", "seccompProfile"]
        = some (Value.map (some seccompProfile)) ∧
      mapKeys (some seccompProfile) = ["type"] ∧
      mapLookup (some seccompProfile) "type" = some (Value.str d.SeccompProfileType) ∧
      getPath (Value.map cfg') ["containerSecurityContext", "capabilities"]
        = some (Value.map (some capabilities)) ∧
      capabilities = capabilitiesAfter d ∧
      (∀ k ∈ mapKeys (some capabilities), k = "drop" ∨ k = "add") ∧
      ∀ other : GoMap, WellShaped other = true →
        ∃ other' : GoMap,
          WithDefaultPodSecurityContext d other = Except.ok other' ∧
          getPath (Value.map other') ["podSecurityContext", "seccompProfile"]
            = getPath (Value.map cfg') ["podSecurityContext", "seccompProfile"] ∧
          getPath (Value.map other') ["containerSecurityContext", "capabilities"]
            = getPath (Value.map cfg') ["containerSecurityContext", "capabilities"] := by
  obtain ⟨kvs, rfl⟩ := wellShaped_exists_fields h
  refine ⟨_, _, _, WithDefaultPodSecurityContext_eq d kvs h, getPath_seccompProfile d kvs, rfl,
    rfl, getPath_capabilities d kvs, rfl, keys_capabilitiesAfter d, ?_⟩
  intro other hother
  obtain ⟨kvs', rfl⟩ := wellShaped_exists_fields hother
  refine ⟨_, WithDefaultPodSecurityContext_eq d kvs' hother, ?_, ?_⟩
  · rw [getPath_seccompProfile, getPath_seccompProfile]
  · rw [getPath_capabilities, getPath_capabilities]

/-- C13 at a configuration whose seccomp profile is a map with a `localhostProfile` and whose
capabilities hold an add list: both blocks are replaced as a whole. -/
theorem WithDefaultPodSecurityContext_replaces_blocks_witness :
    ∃ cfg' : GoMap,
      WithDefaultPodSecurityContext (specDefaults ["ALL"] [])
        (some
          [("podSecurityContext", Value.map (some
              [("seccompProfile", Value.map (some
                  [("type", Value.str "Localhost"),
                    ("localhostProfile", Value.str "profiles/audit.json")]))])),
            ("containerSecurityContext", Value.map (some
              [("capabilities", Value.map (some
                  [("add", Value.strs ["SYS_ADMIN"])]))]))]) = Except.ok cfg' ∧
      getPath (Value.map cfg') ["podSecurityContext", "seccompProfile"]
        = some (Value.map (some [("type", Value.str "RuntimeDefault")])) ∧
      getPath (Value.map cfg') ["containerSecurityContext", "capabilities"]
        = some (Value.map (some [("drop", Value.strs ["ALL"])])) := by
  obtain ⟨cfg', sp, caps, hcall, hsp, hkeys, htype, hcaps, hfresh, -, -⟩ :=
    WithDefaultPodSecurityContext_replaces_blocks (specDefaults ["ALL"] [])
      (some
        [("podSecurityContext", Value.map (some
            [("seccompProfile", Value.map (some
                [("type", Value.str "Localhost"),
                  ("localhostProfile", Value.str "profiles/audit.json")]))])),
          ("containerSecurityContext", Value.map (some
            [("capabilities", Value.map (some
                [("add", Value.strs ["SYS_ADMIN"])]))]))]) rfl
  subst hfresh
  have hsp' : sp = [("type", Value.str "RuntimeDefault")] := by
    match sp, hkeys, htype with
    | [(k, v)], hkeys, htype =>
      simp only [mapKeys, List.map_cons, List.map_nil, List.cons.injEq, and_true] at hkeys
      subst hkeys
      simp only [mapLookup, List.lookup, beq_self_eq_true, Option.some.injEq] at htype
      subst htype
      rfl
  subst hsp'
  exact ⟨cfg', hcall, hsp, hcaps⟩

/-- Lines 87-90 change nothing in a pod security context that holds the defaults. -/
theorem podSecurityContextAfter_of_lookup (d : SecurityDefaults) (kvs : List (String × Value))
    (h1 : kvs.lookup "runAsNonRoot" = some (Value.bool d.RunAsNonRoot))
    (h2 : kvs.lookup "seccompProfile"
      = some (Value.map (some [("type", Value.str d.SeccompProfileType)]))) :
    podSecurityContextAfter d kvs = kvs := by
  unfold podSecurityContextAfter
  rw [assignFields_of_lookup _ _ _ h1, assignFields_of_lookup _ _ _ h2]

/-- The defaulted pod security context is a fixed point of lines 87-90. -/
theorem podSecurityContextAfter_idem (d : SecurityDefaults) (kvs : List (String × Value)) :
    podSecurityContextAfter d (podSecurityContextAfter d kvs) = podSecurityContextAfter d kvs := by
  apply podSecurityContextAfter_of_lookup
  · unfold podSecurityContextAfter
    rw [lookup_assignFields_ne _ _ _ _ (by decide), lookup_assignFields_self]
  · unfold podSecurityContextAfter
    rw [lookup_assignFields_self]

/-- Lines 96-111 change nothing in a container security context that holds the defaults. -/
theorem containerSecurityContextAfter_of_lookup (d : SecurityDefaults)
    (kvs : List (String × Value))
    (h1 : kvs.lookup "allowPrivilegeEscalation" = some (Value.bool d.AllowPrivilegeEscalation))
    (h2 : kvs.lookup "capabilities" = some (Value.map (some (capabilitiesAfter d)))) :
    containerSecurityContextAfter d kvs = kvs := by
  unfold containerSecurityContextAfter
  rw [assignFields_of_lookup _ _ _ h1, assignFields_of_lookup _ _ _ h2]

/-- The defaulted container security context is a fixed point of lines 96-111. -/
theorem containerSecurityContextAfter_idem (d : SecurityDefaults)
    (kvs : List (String × Value)) :
    containerSecurityContextAfter d (containerSecurityContextAfter d kvs)
      = containerSecurityContextAfter d kvs := by
  apply containerSecurityContextAfter_of_lookup
  · unfold containerSecurityContextAfter
    rw [lookup_assignFields_ne _ _ _ _ (by decide), lookup_assignFields_self]
  · unfold containerSecurityContextAfter
    rw [lookup_assignFields_self]

/-- The call changes nothing in a configuration whose two security contexts are fixed
points of their halves. -/
theorem configAfter_of_lookup (d : SecurityDefaults) (kvs psc csc : List (String × Value))
    (hp : kvs.lookup "podSecurityContext" = some (Value.map (some psc)))
    (hc : kvs.lookup "containerSecurityContext" = some (Value.map (some csc)))
    (hpsc : podSecurityContextAfter d psc = psc)
    (hcsc : containerSecurityContextAfter d csc = csc) :
    configAfter d kvs = kvs := by
  unfold configAfter
  simp only [subFields, mapLookup, hp, hc]
  rw [hpsc, hcsc, assignFields_of_lookup _ _ _ hp, assignFields_of_lookup _ _ _ hc]

/-- The result of a call is a fixed point of the call. -/
theorem configAfter_idem (d : SecurityDefaults) (kvs : List (String × Value)) :
    configAfter d (configAfter d kvs) = configAfter d kvs :=
  configAfter_of_lookup d _ _ _ (lookup_configAfter_pod d kvs)
    (lookup_configAfter_container d kvs) (podSecurityContextAfter_idem d _)
    (containerSecurityContextAfter_idem d _)

/-- C14: on every well-shaped `cfg` the call completes, and a second call on the result
completes and returns that same result: the whole configuration after two calls equals,
as a nested value, the configuration after one. -/
theorem WithDefaultPodSecurityContext_idempotent (d : SecurityDefaults) (cfg : GoMap)
    (h : WellShaped cfg = true) :
    ∃ once : GoMap,
      WithDefaultPodSecurityContext d cfg = Except.ok once ∧
      WithDefaultPodSecurityContext d once = Except.ok once := by
  obtain ⟨kvs, rfl⟩ := wellShaped_exists_fields h
  refine ⟨_, WithDefaultPodSecurityContext_eq d kvs h, ?_⟩
  rw [WithDefaultPodSecurityContext_eq d _ (wellShaped_configAfter d kvs), configAfter_idem]

/-- C14 at a configuration with a third top-level key and values under both security
contexts: the first call gives the configuration spelled out, and the second call gives it
again. -/
theorem WithDefaultPodSecurityContext_idempotent_witness :
    WithDefaultPodSecurityContext (specDefaults ["ALL"] ["NET_BIND_SERVICE"])
        (some
          [("replicas", Value.other "int 3"),
            ("podSecurityContext", Value.map (some
              [("seccompProfile", Value.str "Unconfined"),
                ("fsGroup", Value.other "int 2000")]))]) =
        Except.ok (some
          [("replicas", Value.other "int 3"),
            ("podSecurityContext", Value.map (some
              [("seccompProfile", Value.map (some [("type", Value.str "RuntimeDefault")])),
                ("fsGroup", Value.other "int 2000"),
                ("runAsNonRoot", Value.bool true)])),
            ("containerSecurityContext", Value.map (some
              [("allowPrivilegeEscalation", Value.bool false),
                ("capabilities", Value.map (some
                  [("drop", Value.strs ["ALL"]), ("add", Value.strs ["ALL"])]))]))]) ∧
      ∃ once : GoMap,
        WithDefaultPodSecurityContext (specDefaults ["ALL"] ["NET_BIND_SERVICE"])
          (some
            [("replicas", Value.other "int 3"),
              ("podSecurityContext", Value.map (some
                [("seccompProfile", Value.str "Unconfined"),
                  ("fsGroup", Value.other "int 2000")]))]) = Except.ok once ∧
        WithDefaultPodSecurityContext (specDefaults ["ALL"] ["NET_BIND_SERVICE"]) once
          = Except.ok once :=
  ⟨rfl,
    WithDefaultPodSecurityContext_idempotent (specDefaults ["ALL"] ["NET_BIND_SERVICE"])
      (some
        [("replicas", Value.other "int 3"),
          ("podSecurityContext", Value.map (some
            [("seccompProfile", Value.str "Unconfined"),
              ("fsGroup", Value.other "int 2000")]))]) rfl⟩

/-! ## Map objects on the heap -/

/-- After `m[k] = v` the key `k` of the object reads `v`. -/
theorem lookup_assignEntry_self (k : String) (v : RefValue) (kvs : MapObject) :
    (assignEntry k v kvs).lookup k = some v := by
  induction kvs with
  | nil => simp [assignEntry, List.lookup]
  | cons kv rest ih =>
    obtain ⟨k', v'⟩ := kv
    by_cases h : k' = k
    · simp [assignEntry, h, List.lookup]
    · have h' : (k == k') = false := by simpa using fun e => h e.symm
      simp [assignEntry, h, List.lookup, h', ih]

/-- The assignment `m[k] = v` leaves every other key of the object as it was. -/
theorem lookup_assignEntry_ne (k k' : String) (v : RefValue) (kvs : MapObject)
    (hne : k' ≠ k) : (assignEntry k v kvs).lookup k' = kvs.lookup k' := by
  induction kvs with
  | nil =>
    have h' : (k' == k) = false := by simpa using hne
    simp [assignEntry, List.lookup, h']
  | cons kv rest ih =>
    obtain ⟨k₁, v₁⟩ := kv
    by_cases h : k₁ = k
    · subst h
      have h' : (k' == k₁) = false := by simpa using hne
      simp [assignEntry, List.lookup, h']
    · simp [assignEntry, h, List.lookup, ih]

/-- A store does not change the number of objects. -/
theorem length_heapStore (h : Heap) (a : Nat) (k : String) (v : RefValue) :
    (heapStore h a k v).length = h.length := by
  simp [heapStore]

/-- A new object adds one to the number of objects. -/
theorem length_heapMake (h : Heap) : (heapMake h).length = h.length + 1 := by
  simp [heapMake]

/-- Making a new object changes no object: the new one is empty, as is every address
beyond the heap. -/
theorem heapObject_heapMake (h : Heap) (a : Nat) :
    heapObject (heapMake h) a = heapObject h a := by
  unfold heapObject heapMake
  rcases Nat.lt_trichotomy a h.length with hlt | heq | hgt
  · simp [List.getD_eq_getElem?_getD, List.getElem?_append_left hlt]
  · subst heq
    simp [List.getD_eq_getElem?_getD]
  · have h1 : h.length + 1 ≤ a := hgt
    simp [List.getD_eq_getElem?_getD, List.getElem?_eq_none, h1, Nat.le_of_lt hgt]

/-- The object at the address stored to, and every other object, after a store. -/
theorem heapObject_heapStore (h : Heap) (a a' : Nat) (k : String) (v : RefValue)
    (ha : a < h.length) :
    heapObject (heapStore h a k v) a'
      = if a' = a then assignEntry k v (heapObject h a) else heapObject h a' := by
  unfold heapStore heapObject
  by_cases e : a' = a
  · subst e
    simp [List.getD_eq_getElem?_getD, List.getElem?_set, ha]
  · have e' : ¬ a = a' := fun x => e x.symm
    simp [List.getD_eq_getElem?_getD, List.getElem?_set, e, e']

/-- Reading after a store: the entry stored reads the value stored, every other entry of
every object reads as before. -/
theorem heapLookup_heapStore (h : Heap) (a a' : Nat) (k k' : String) (v : RefValue)
    (ha : a < h.length) :
    heapLookup (heapStore h a k v) (some a') k'
      = if a' = a ∧ k' = k then some v else heapLookup h (some a') k' := by
  simp only [heapLookup, heapObject_heapStore h a a' k v ha]
  by_cases e : a' = a
  · subst e
    by_cases ek : k' = k
    · subst ek
      simp [lookup_assignEntry_self]
    · simp [ek, lookup_assignEntry_ne _ _ _ _ ek]
  · simp [e]

/-- Reading after a new object was made. -/
theorem heapLookup_heapMake (h : Heap) (m : Option Nat) (k : String) :
    heapLookup (heapMake h) m k = heapLookup h m k := by
  cases m with
  | none => rfl
  | some a => simp [heapLookup, heapObject_heapMake]

/-- An address beyond the heap holds no object. -/
theorem heapObject_of_le (h : Heap) (a : Nat) (ha : h.length ≤ a) : heapObject h a = [] := by
  simp [heapObject, List.getD_eq_getElem?_getD, List.getElem?_eq_none ha]

/-- The append loop on a map object whose `key` holds a string list runs to its end, and
touches no other object. -/
theorem heapAppendCapabilities_spec (key : String) (m : Nat) (names : List String) :
    ∀ (h : Heap) (current : List String), m < h.length →
      heapLookup h (some m) key = some (RefValue.strs current) →
      ∃ h', heapAppendCapabilities key (some m) names h = Except.ok h' ∧
        h'.length = h.length ∧ ∀ a, a ≠ m → heapObject h' a = heapObject h a := by
  induction names with
  | nil =>
    intro h current _ _
    exact ⟨h, rfl, rfl, fun _ _ => rfl⟩
  | cons n rest ih =>
    intro h current hm hl
    have hnext : heapLookup (heapStore h m key (RefValue.strs (current ++ [n]))) (some m) key
        = some (RefValue.strs (current ++ [n])) := by
      rw [heapLookup_heapStore h m m key key _ hm]
      simp
    obtain ⟨h', hrun, hlen, hobj⟩ :=
      ih (heapStore h m key (RefValue.strs (current ++ [n]))) (current ++ [n])
        (by rw [length_heapStore]; exact hm) hnext
    refine ⟨h', ?_, ?_, ?_⟩
    · simp [heapAppendCapabilities, heapIndex, hl, assertStringsRef, heapAssign, bind,
        Except.bind, hrun]
    · rw [hlen, length_heapStore]
    · intro a ha
      rw [hobj a ha, heapObject_heapStore h m a key _ hm, if_neg ha]

/-- One guarded block of lines 100-111 on the map object at `m`: it runs to its end and
touches no other object. -/
theorem heapFillCapabilities_spec (key : String) (m : Nat) (names : List String) (h : Heap)
    (hm : m < h.length) :
    ∃ h', heapAppendCapabilities key (some m) names (heapStore h m key (RefValue.strs []))
        = Except.ok h' ∧
      h'.length = h.length ∧ ∀ a, a ≠ m → heapObject h' a = heapObject h a := by
  have hl : heapLookup (heapStore h m key (RefValue.strs [])) (some m) key
      = some (RefValue.strs []) := by
    rw [heapLookup_heapStore h m m key key _ hm]
    simp
  obtain ⟨h', hrun, hlen, hobj⟩ :=
    heapAppendCapabilities_spec key m names (heapStore h m key (RefValue.strs [])) []
      (by rw [length_heapStore]; exact hm) hl
  refine ⟨h', hrun, by rw [hlen, length_heapStore], ?_⟩
  intro a ha
  rw [hobj a ha, heapObject_heapStore h m a key _ hm, if_neg ha]

/-- Lines 100-111 on the map object at `m`: they run to their end and touch no other
object. -/
theorem heapDefaultCapabilities_spec (d : SecurityDefaults) (h : Heap) (m : Nat)
    (hm : m < h.length) :
    ∃ h', heapDefaultCapabilities d h (some m) = Except.ok h' ∧
      h'.length = h.length ∧ ∀ a, a ≠ m → heapObject h' a = heapObject h a := by
  unfold heapDefaultCapabilities
  by_cases hD : d.Drop.length ≠ 0
  · obtain ⟨h1, hrun1, hlen1, hobj1⟩ := heapFillCapabilities_spec "drop" m d.Drop h hm
    by_cases hA : d.Add.length ≠ 0
    · obtain ⟨h2, hrun2, hlen2, hobj2⟩ :=
        heapFillCapabilities_spec "add" m d.Drop h1 (by rw [hlen1]; exact hm)
      refine ⟨h2, ?_, by rw [hlen2, hlen1], fun a ha => by rw [hobj2 a ha, hobj1 a ha]⟩
      simp only [if_pos hD, if_pos hA, heapAssign, bind, Except.bind, hrun1, hrun2]
    · refine ⟨h1, ?_, hlen1, hobj1⟩
      simp only [if_pos hD, if_neg hA, heapAssign, bind, Except.bind, hrun1, pure, Except.pure]
  · by_cases hA : d.Add.length ≠ 0
    · obtain ⟨h2, hrun2, hlen2, hobj2⟩ := heapFillCapabilities_spec "add" m d.Drop h hm
      refine ⟨h2, ?_, hlen2, hobj2⟩
      simp only [if_neg hD, if_pos hA, heapAssign, bind, Except.bind, hrun2, pure, Except.pure]
    · refine ⟨h, ?_, rfl, fun _ _ => rfl⟩
      simp only [if_neg hD, if_neg hA, bind, Except.bind, pure, Except.pure]

/-- Binding a new map object adds one to the number of objects. -/
theorem length_heapBindNew (h : Heap) (c : Nat) (k : String) :
    (heapBindNew h c k).length = h.length + 1 := by
  simp [heapBindNew, length_heapStore, length_heapMake]

/-- Reading after a new map object was bound to `k` in the object at `c`. -/
theorem heapLookup_heapBindNew (h : Heap) (c a : Nat) (k k' : String) (hc : c < h.length) :
    heapLookup (heapBindNew h c k) (some a) k'
      = if a = c ∧ k' = k then some (RefValue.map (some h.length))
        else heapLookup h (some a) k' := by
  unfold heapBindNew
  rw [heapLookup_heapStore _ c a k k' _ (by rw [length_heapMake]; omega), heapLookup_heapMake]

/-- The number of objects after lines 86-90. -/
theorem length_heapPodAfter (d : SecurityDefaults) (h : Heap) (p : Nat) :
    (heapPodAfter d h p).length = h.length + 1 := by
  simp [heapPodAfter, length_heapStore, length_heapMake]

/-- Reading after lines 86-90: the new object holds "type", the pod security context holds
the two defaults, every other entry reads as before. -/
theorem heapLookup_heapPodAfter (d : SecurityDefaults) (h : Heap) (p a : Nat) (k : String)
    (hp : p < h.length) :
    heapLookup (heapPodAfter d h p) (some a) k
      = if a = h.length ∧ k = "type" then some (RefValue.str d.SeccompProfileType)
        else if a = p ∧ k = "seccompProfile" then some (RefValue.map (some h.length))
        else if a = p ∧ k = "runAsNonRoot" then some (RefValue.bool d.RunAsNonRoot)
        else heapLookup h (some a) k := by
  unfold heapPodAfter
  rw [heapLookup_heapStore _ h.length a "type" k _
      (by simp [length_heapStore, length_heapMake]),
    heapLookup_heapStore _ p a "seccompProfile" k _
      (by simp [length_heapStore, length_heapMake]; omega),
    heapLookup_heapMake, heapLookup_heapStore _ p a "runAsNonRoot" k _ hp]

/-- Lines 83-90 when "podSecurityContext" is bound to the map object at `p`. -/
theorem heapDefaultPodSecurityContext_present (d : SecurityDefaults) (h : Heap) (c p : Nat)
    (hp : p < h.length)
    (hl : heapLookup h (some c) "podSecurityContext" = some (RefValue.map (some p))) :
    heapDefaultPodSecurityContext d h (some c) = Except.ok (heapPodAfter d h p) := by
  have hs : heapLookup
      (heapStore (heapMake (heapStore h p "runAsNonRoot" (RefValue.bool d.RunAsNonRoot))) p
        "seccompProfile"
        (RefValue.map (some (heapStore h p "runAsNonRoot"
          (RefValue.bool d.RunAsNonRoot)).length)))
      (some p) "seccompProfile"
      = some (RefValue.map (some h.length)) := by
    rw [heapLookup_heapStore _ p p _ _ _ (by simp [length_heapStore, length_heapMake]; omega)]
    simp [length_heapStore]
  simp only [heapDefaultPodSecurityContext, hl, Option.isNone_some, heapIndex, Option.getD_some,
    assertMapRef, heapAssign, bind, Except.bind, pure, Except.pure, hs]
  simp [heapPodAfter, length_heapStore]

/-- Lines 83-90 when "podSecurityContext" is not set: line 84 binds a new map object, and
the rest runs as if it had been bound before. -/
theorem heapDefaultPodSecurityContext_absent (d : SecurityDefaults) (h : Heap) (c : Nat)
    (hc : c < h.length) (hl : heapLookup h (some c) "podSecurityContext" = none) :
    heapDefaultPodSecurityContext d h (some c)
      = Except.ok (heapPodAfter d (heapBindNew h c "podSecurityContext") h.length) := by
  have hnew : heapLookup (heapBindNew h c "podSecurityContext") (some c) "podSecurityContext"
      = some (RefValue.map (some h.length)) := by
    rw [heapLookup_heapBindNew h c c _ _ hc]
    simp
  rw [← heapDefaultPodSecurityContext_present d (heapBindNew h c "podSecurityContext") c
    h.length (by rw [length_heapBindNew]; omega) hnew]
  conv_lhs =>
    unfold heapDefaultPodSecurityContext
    simp only [hl, Option.isNone_none, if_true, heapAssign, bind, Except.bind]
  conv_rhs =>
    unfold heapDefaultPodSecurityContext
    simp only [hnew, Option.isNone_some, Bool.false_eq_true, if_false, bind, Except.bind, pure,
      Except.pure]
  rfl

/-- Lines 83-90 on a map object `c` whose "podSecurityContext" is absent or a map object:
they run to their end; the pod security context `p` is the object bound before, or a new
one at the old size of the heap; the seccomp profile `s` is a new object; every entry reads
as `podReads` says. -/
theorem heapDefaultPodSecurityContext_spec (d : SecurityDefaults) (h : Heap) (c : Nat)
    (hc : c < h.length)
    (hk : heapAbsentOrObject h (some c) "podSecurityContext" = true) :
    ∃ (h' : Heap) (p s : Nat),
      heapDefaultPodSecurityContext d h (some c) = Except.ok h' ∧
      h'.length = s + 1 ∧ h.length ≤ s ∧ p < s ∧
      (heapLookup h (some c) "podSecurityContext" = none → p = h.length) ∧
      (∀ v, heapLookup h (some c) "podSecurityContext" = some v →
        v = RefValue.map (some p) ∧ p < h.length) ∧
      ∀ a k, heapLookup h' (some a) k
        = podReads d c p s (heapLookup h (some c) "podSecurityContext").isNone a k
            (heapLookup h (some a) k) := by
  unfold heapAbsentOrObject at hk
  cases hl : heapLookup h (some c) "podSecurityContext" with
  | none =>
    refine ⟨_, h.length, h.length + 1, heapDefaultPodSecurityContext_absent d h c hc hl, ?_,
      by omega, by omega, fun _ => rfl, fun v hv => by simp at hv, ?_⟩
    · rw [length_heapPodAfter, length_heapBindNew]
    · intro a k
      rw [heapLookup_heapPodAfter _ _ _ _ _ (by rw [length_heapBindNew]; omega),
        heapLookup_heapBindNew _ _ _ _ _ hc, length_heapBindNew]
      simp [podReads]
  | some v =>
    rw [hl] at hk
    cases v with
    | map m =>
      cases m with
      | none => simp at hk
      | some p =>
        have hp : p < h.length := by simpa using hk
        refine ⟨_, p, h.length, heapDefaultPodSecurityContext_present d h c p hp hl, ?_,
          by omega, hp, fun e => by simp at e, fun v hv => ?_, ?_⟩
        · rw [length_heapPodAfter]
        · simp only [Option.some.injEq] at hv
          exact ⟨hv.symm, hp⟩
        · intro a k
          rw [heapLookup_heapPodAfter _ _ _ _ _ hp]
          simp [podReads]
    | _ => simp at hk

/-- The number of objects after lines 95-98. -/
theorem length_heapContainerBefore (d : SecurityDefaults) (h : Heap) (q : Nat) :
    (heapContainerBefore d h q).length = h.length + 1 := by
  simp [heapContainerBefore, length_heapStore, length_heapMake]

/-- Reading after lines 95-98. -/
theorem heapLookup_heapContainerBefore (d : SecurityDefaults) (h : Heap) (q a : Nat)
    (k : String) (hq : q < h.length) :
    heapLookup (heapContainerBefore d h q) (some a) k
      = if a = q ∧ k = "capabilities" then some (RefValue.map (some h.length))
        else if a = q ∧ k = "allowPrivilegeEscalation" then
          some (RefValue.bool d.AllowPrivilegeEscalation)
        else heapLookup h (some a) k := by
  unfold heapContainerBefore
  rw [heapLookup_heapStore _ q a "capabilities" k _
      (by simp [length_heapStore, length_heapMake]; omega),
    heapLookup_heapMake, heapLookup_heapStore _ q a "allowPrivilegeEscalation" k _ hq]

/-- Lines 92-111 when "containerSecurityContext" is bound to the map object at `q`: they
run to their end, and apart from the new capabilities map every object is as after lines
95-98. -/
theorem heapDefaultContainerSecurityContext_present (d : SecurityDefaults) (h : Heap)
    (c q : Nat) (hq : q < h.length)
    (hl : heapLookup h (some c) "containerSecurityContext" = some (RefValue.map (some q))) :
    ∃ h', heapDefaultContainerSecurityContext d h (some c) = Except.ok h' ∧
      h'.length = h.length + 1 ∧
      ∀ a, a ≠ h.length → heapObject h' a = heapObject (heapContainerBefore d h q) a := by
  have hs : heapLookup (heapContainerBefore d h q) (some q) "capabilities"
      = some (RefValue.map (some h.length)) := by
    rw [heapLookup_heapContainerBefore d h q q _ hq]
    simp
  obtain ⟨h', hrun, hlen, hobj⟩ :=
    heapDefaultCapabilities_spec d (heapContainerBefore d h q) h.length
      (by rw [length_heapContainerBefore]; omega)
  refine ⟨h', ?_, by rw [hlen, length_heapContainerBefore], hobj⟩
  rw [← hrun]
  unfold heapContainerBefore at hs
  simp only [heapDefaultContainerSecurityContext, hl, Option.isNone_some, heapIndex,
    Option.getD_some, assertMapRef, heapAssign, bind, Except.bind, pure, Except.pure,
    Bool.false_eq_true, if_false, length_heapStore, hs, heapContainerBefore]

/-- Lines 92-111 when "containerSecurityContext" is not set: line 93 binds a new map
object, and the rest runs as if it had been bound before. -/
theorem heapDefaultContainerSecurityContext_absent (d : SecurityDefaults) (h : Heap) (c : Nat)
    (hc : c < h.length) (hl : heapLookup h (some c) "containerSecurityContext" = none) :
    heapDefaultContainerSecurityContext d h (some c)
      = heapDefaultContainerSecurityContext d (heapBindNew h c "containerSecurityContext")
          (some c) := by
  have hnew : heapLookup (heapBindNew h c "containerSecurityContext") (some c)
      "containerSecurityContext" = some (RefValue.map (some h.length)) := by
    rw [heapLookup_heapBindNew h c c _ _ hc]
    simp
  conv_lhs =>
    unfold heapDefaultContainerSecurityContext
    simp only [hl, Option.isNone_none, if_true, heapAssign, bind, Except.bind]
  conv_rhs =>
    unfold heapDefaultContainerSecurityContext
    simp only [hnew, Option.isNone_some, Bool.false_eq_true, if_false, bind, Except.bind, pure,
      Except.pure]
  rfl

/-- Lines 92-111 on a map object `c` whose "containerSecurityContext" is absent or a map
object: they run to their end; the container security context `q` is the object bound
before, or a new one at the old size of the heap; the capabilities map `m` is a new object;
every entry of every other object reads as `containerReads` says. -/
theorem heapDefaultContainerSecurityContext_spec (d : SecurityDefaults) (h : Heap) (c : Nat)
    (hc : c < h.length)
    (hk : heapAbsentOrObject h (some c) "containerSecurityContext" = true) :
    ∃ (h' : Heap) (q m : Nat),
      heapDefaultContainerSecurityContext d h (some c) = Except.ok h' ∧
      h'.length = m + 1 ∧ h.length ≤ m ∧ q < m ∧
      (heapLookup h (some c) "containerSecurityContext" = none → q = h.length) ∧
      (∀ v, heapLookup h (some c) "containerSecurityContext" = some v →
        v = RefValue.map (some q) ∧ q < h.length) ∧
      ∀ a k, a ≠ m → heapLookup h' (some a) k
        = containerReads d c q m (heapLookup h (some c) "containerSecurityContext").isNone a k
            (heapLookup h (some a) k) := by
  unfold heapAbsentOrObject at hk
  cases hl : heapLookup h (some c) "containerSecurityContext" with
  | none =>
    have hnew : heapLookup (heapBindNew h c "containerSecurityContext") (some c)
        "containerSecurityContext" = some (RefValue.map (some h.length)) := by
      rw [heapLookup_heapBindNew h c c _ _ hc]
      simp
    obtain ⟨h', hrun, hlen, hobj⟩ :=
      heapDefaultContainerSecurityContext_present d (heapBindNew h c "containerSecurityContext")
        c h.length (by rw [length_heapBindNew]; omega) hnew
    rw [length_heapBindNew] at hlen hobj
    refine ⟨h', h.length, h.length + 1, ?_, hlen, by omega, by omega, fun _ => rfl,
      fun v hv => by simp at hv, ?_⟩
    · rw [heapDefaultContainerSecurityContext_absent d h c hc hl, hrun]
    · intro a k ha
      have e := hobj a ha
      simp only [heapLookup, e]
      have e2 := heapLookup_heapContainerBefore d (heapBindNew h c "containerSecurityContext")
        h.length a k (by rw [length_heapBindNew]; omega)
      simp only [heapLookup] at e2
      rw [e2]
      have e3 := heapLookup_heapBindNew h c a "containerSecurityContext" k hc
      simp only [heapLookup] at e3
      rw [e3, length_heapBindNew]
      simp [containerReads]
  | some v =>
    rw [hl] at hk
    cases v with
    | map r =>
      cases r with
      | none => simp at hk
      | some q =>
        have hq : q < h.length := by simpa using hk
        obtain ⟨h', hrun, hlen, hobj⟩ :=
          heapDefaultContainerSecurityContext_present d h c q hq hl
        refine ⟨h', q, h.length, hrun, hlen, by omega, hq, fun e => by simp at e,
          fun v hv => ?_, ?_⟩
        · simp only [Option.some.injEq] at hv
          exact ⟨hv.symm, hq⟩
        · intro a k ha
          have e := hobj a ha
          simp only [heapLookup, e]
          have e2 := heapLookup_heapContainerBefore d h q a k hq
          simp only [heapLookup] at e2
          rw [e2]
          simp [containerReads]
    | _ => simp at hk

/-- The call on a well-shaped configuration runs to its end. With `p` the pod security
context and `q` the container security context (each the object bound before the call, or a
new one), `s` the new seccomp profile and `m` the new capabilities map, every entry of every
object other than `m` reads after the call as `podReads` and then `containerReads` say. -/
theorem heapWithDefaultPodSecurityContext_spec (d : SecurityDefaults) (h : Heap) (c : Nat)
    (hw : HeapWellShaped h (some c) = true) :
    ∃ (h' : Heap) (p s q m : Nat),
      heapWithDefaultPodSecurityContext d h (some c) = Except.ok h' ∧
      h'.length = m + 1 ∧ c < h.length ∧ h.length ≤ s ∧ s < m ∧ p < s ∧ q < m ∧ q ≠ s ∧
      (heapLookup h (some c) "podSecurityContext" = none → p = h.length) ∧
      (∀ v, heapLookup h (some c) "podSecurityContext" = some v →
        v = RefValue.map (some p) ∧ p < h.length) ∧
      (heapLookup h (some c) "containerSecurityContext" = none → q = s + 1) ∧
      (∀ v, heapLookup h (some c) "containerSecurityContext" = some v →
        v = RefValue.map (some q) ∧ q < h.length) ∧
      ∀ a k, a ≠ m → heapLookup h' (some a) k
        = containerReads d c q m
            (heapLookup h (some c) "containerSecurityContext").isNone a k
            (podReads d c p s (heapLookup h (some c) "podSecurityContext").isNone a k
              (heapLookup h (some a) k)) := by
  simp only [HeapWellShaped, Bool.and_eq_true, decide_eq_true_eq] at hw
  obtain ⟨⟨hc, hpod⟩, hcontainer⟩ := hw
  obtain ⟨h1, p, s, hrun1, hlen1, hs, hps, hpabs, hppres, hreads1⟩ :=
    heapDefaultPodSecurityContext_spec d h c hc hpod
  have hsame : heapLookup h1 (some c) "containerSecurityContext"
      = heapLookup h (some c) "containerSecurityContext" := by
    rw [hreads1]
    simp [podReads]
  have hcontainer1 : heapAbsentOrObject h1 (some c) "containerSecurityContext" = true := by
    unfold heapAbsentOrObject at hcontainer ⊢
    rw [hsame]
    cases hl : heapLookup h (some c) "containerSecurityContext" with
    | none => rfl
    | some v =>
      rw [hl] at hcontainer
      cases v with
      | map r =>
        cases r with
        | none => simp at hcontainer
        | some q =>
          have hq : q < h.length := by simpa using hcontainer
          simp only [decide_eq_true_eq]
          omega
      | _ => simp at hcontainer
  obtain ⟨h2, q, m, hrun2, hlen2, hm, hqm, hqabs, hqpres, hreads2⟩ :=
    heapDefaultContainerSecurityContext_spec d h1 c (by omega) hcontainer1
  rw [hsame] at hqabs hqpres hreads2
  refine ⟨h2, p, s, q, m, ?_, hlen2, hc, hs, by omega, hps, hqm, ?_, hpabs, hppres, ?_, ?_, ?_⟩
  · simp [heapWithDefaultPodSecurityContext, hrun1, bind, Except.bind, hrun2]
  · cases hl : heapLookup h (some c) "containerSecurityContext" with
    | none =>
      have := hqabs hl
      omega
    | some v =>
      have := (hqpres v hl).2
      unfold heapAbsentOrObject at hcontainer
      rw [hl] at hcontainer
      have hq := (hqpres v hl).1
      subst hq
      have hq : q < h.length := by simpa using hcontainer
      omega
  · intro hl
    rw [hqabs hl, hlen1]
  · intro v hl
    refine ⟨(hqpres v hl).1, ?_⟩
    unfold heapAbsentOrObject at hcontainer
    rw [hl] at hcontainer
    have hq := (hqpres v hl).1
    subst hq
    simpa using hcontainer
  · intro a k ha
    rw [hreads2 a k ha, hreads1]

/-! ## The defaulter on shared maps -/

/-- A well-shaped configuration on the heap is a map object. -/
theorem heapWellShaped_exists {h : Heap} {cfg : Option Nat}
    (hw : HeapWellShaped h cfg = true) : ∃ c, cfg = some c := by
  cases cfg with
  | none => simp [HeapWellShaped] at hw
  | some c => exact ⟨c, rfl⟩

/-- A path of one key through a map. -/
theorem heapGetPath_one (h : Heap) (r : Option Nat) (k : String) :
    heapGetPath h (RefValue.map r) [k] = heapLookup h r k := by
  simp only [heapGetPath]
  cases heapLookup h r k <;> rfl

/-- A path of two keys whose first key is bound to a map. -/
theorem heapGetPath_two (h : Heap) (c : Option Nat) (r : Option Nat) (k₁ k₂ : String)
    (hl : heapLookup h c k₁ = some (RefValue.map r)) :
    heapGetPath h (RefValue.map c) [k₁, k₂] = heapLookup h r k₂ := by
  rw [heapGetPath, hl]
  exact heapGetPath_one h r k₂

/-- A path through a key that is not set leads nowhere. -/
theorem heapGetPath_absent (h : Heap) (c : Option Nat) (k : String) (ks : List String)
    (hl : heapLookup h c k = none) : heapGetPath h (RefValue.map c) (k :: ks) = none := by
  rw [heapGetPath, hl]

/-- No key is set in an object beyond the heap. -/
theorem heapLookup_of_le (h : Heap) (a : Nat) (k : String) (ha : h.length ≤ a) :
    heapLookup h (some a) k = none := by
  simp [heapLookup, heapObject_of_le h a ha]

/-- The entries the call leaves alone, for a well-shaped configuration on the heap: an
entry of an object in existence before the call that is not among `Writes` reads after the
call what it read before. -/
theorem heapWithDefaultPodSecurityContext_unwritten (d : SecurityDefaults) (h : Heap)
    (c : Nat) (hw : HeapWellShaped h (some c) = true) :
    ∃ h' : Heap,
      heapWithDefaultPodSecurityContext d h (some c) = Except.ok h' ∧ h.length ≤ h'.length ∧
      ∀ a k, a < h.length → ¬ Writes h (some c) a k →
        heapLookup h' (some a) k = heapLookup h (some a) k := by
  obtain ⟨h', p, s, q, m, hrun, hlen, hc, hs, hsm, hps, hqm, hqs, hpabs, hppres, hqabs, hqpres,
    hreads⟩ := heapWithDefaultPodSecurityContext_spec d h c hw
  refine ⟨h', hrun, by omega, ?_⟩
  intro a k ha hnot
  simp only [Writes, not_or, Option.some.injEq] at hnot
  obtain ⟨hw1, hw2, hw3⟩ := hnot
  rw [hreads a k (by omega)]
  have hq : a = q → k ≠ "capabilities" ∧ k ≠ "allowPrivilegeEscalation" := by
    intro e
    cases hl : heapLookup h (some c) "containerSecurityContext" with
    | none =>
      have := hqabs hl
      omega
    | some v =>
      have hv := (hqpres v hl).1
      have hi : heapIndex h (some c) "containerSecurityContext" = RefValue.map (some a) := by
        simp [heapIndex, hl, hv, e]
      constructor
      · intro ek
        exact hw3 ⟨hi, Or.inr ek⟩
      · intro ek
        exact hw3 ⟨hi, Or.inl ek⟩
  have hp : a = p → k ≠ "seccompProfile" ∧ k ≠ "runAsNonRoot" := by
    intro e
    cases hl : heapLookup h (some c) "podSecurityContext" with
    | none =>
      have := hpabs hl
      omega
    | some v =>
      have hv := (hppres v hl).1
      have hi : heapIndex h (some c) "podSecurityContext" = RefValue.map (some a) := by
        simp [heapIndex, hl, hv, e]
      constructor
      · intro ek
        exact hw2 ⟨hi, Or.inr ek⟩
      · intro ek
        exact hw2 ⟨hi, Or.inl ek⟩
  have h1 : ¬ (a = q ∧ k = "capabilities") := fun e => (hq e.1).1 e.2
  have h2 : ¬ (a = q ∧ k = "allowPrivilegeEscalation") := fun e => (hq e.1).2 e.2
  have h3 : ¬ (a = c ∧ k = "containerSecurityContext" ∧
      (heapLookup h (some c) "containerSecurityContext").isNone = true) := by
    rintro ⟨e1, e2, e3⟩
    subst e2
    exact hw1 ⟨e1.symm, Or.inr rfl, by simpa using e3⟩
  have h4 : ¬ (a = s ∧ k = "type") := fun e => by omega
  have h5 : ¬ (a = p ∧ k = "seccompProfile") := fun e => (hp e.1).1 e.2
  have h6 : ¬ (a = p ∧ k = "runAsNonRoot") := fun e => (hp e.1).2 e.2
  have h7 : ¬ (a = c ∧ k = "podSecurityContext" ∧
      (heapLookup h (some c) "podSecurityContext").isNone = true) := by
    rintro ⟨e1, e2, e3⟩
    subst e2
    exact hw1 ⟨e1.symm, Or.inl rfl, by simpa using e3⟩
  simp only [containerReads, podReads, if_neg h1, if_neg h2, if_neg h3, if_neg h4, if_neg h5,
    if_neg h6, if_neg h7]

/-- The call on a well-shaped configuration whose three map objects are different: what the
paths through the two security contexts read afterwards. -/
theorem heapWithDefaultPodSecurityContext_separate (d : SecurityDefaults) (h : Heap) (c : Nat)
    (hw : HeapWellShaped h (some c) = true) (hsep : Separate h (some c) = true) :
    ∃ h' : Heap,
      heapWithDefaultPodSecurityContext d h (some c) = Except.ok h' ∧
      (∀ k, k ≠ "podSecurityContext" → k ≠ "containerSecurityContext" →
        heapLookup h' (some c) k = heapLookup h (some c) k) ∧
      (∀ k, k ≠ "runAsNonRoot" → k ≠ "seccompProfile" →
        heapGetPath h' (RefValue.map (some c)) ["podSecurityContext", k]
          = heapGetPath h (RefValue.map (some c)) ["podSecurityContext", k]) ∧
      (∀ k, k ≠ "allowPrivilegeEscalation" → k ≠ "capabilities" →
        heapGetPath h' (RefValue.map (some c)) ["containerSecurityContext", k]
          = heapGetPath h (RefValue.map (some c)) ["containerSecurityContext", k]) ∧
      heapGetPath h' (RefValue.map (some c)) ["podSecurityContext", "runAsNonRoot"]
        = some (RefValue.bool d.RunAsNonRoot) ∧
      (∃ s, h.length ≤ s ∧
        heapGetPath h' (RefValue.map (some c)) ["podSecurityContext", "seccompProfile"]
          = some (RefValue.map (some s))) ∧
      heapGetPath h' (RefValue.map (some c)) ["containerSecurityContext",
          "allowPrivilegeEscalation"] = some (RefValue.bool d.AllowPrivilegeEscalation) ∧
      (∃ m, h.length ≤ m ∧
        heapGetPath h' (RefValue.map (some c)) ["containerSecurityContext", "capabilities"]
          = some (RefValue.map (some m))) := by
  obtain ⟨h', p, s, q, m, hrun, hlen, hc, hs, hsm, hps, hqm, hqs, hpabs, hppres, hqabs, hqpres,
    hreads⟩ := heapWithDefaultPodSecurityContext_spec d h c hw
  simp only [Separate, Bool.and_eq_true, Bool.or_eq_true, decide_eq_true_eq] at hsep
  obtain ⟨⟨sep1, sep2⟩, sep3⟩ := hsep
  have hpc : p ≠ c := by
    cases hl : heapLookup h (some c) "podSecurityContext" with
    | none =>
      have := hpabs hl
      omega
    | some v =>
      intro e
      rw [hl, (hppres v hl).1, e] at sep1
      exact sep1 rfl
  have hqc : q ≠ c := by
    cases hl : heapLookup h (some c) "containerSecurityContext" with
    | none =>
      have := hqabs hl
      omega
    | some v =>
      intro e
      rw [hl, (hqpres v hl).1, e] at sep2
      exact sep2 rfl
  have hpq : p ≠ q := by
    cases hl : heapLookup h (some c) "podSecurityContext" with
    | none =>
      have hp := hpabs hl
      cases hl2 : heapLookup h (some c) "containerSecurityContext" with
      | none =>
        have := hqabs hl2
        omega
      | some w =>
        have := (hqpres w hl2).2
        omega
    | some v =>
      cases hl2 : heapLookup h (some c) "containerSecurityContext" with
      | none =>
        have := hqabs hl2
        omega
      | some w =>
        intro e
        rcases sep3 with sep3 | sep3
        · rw [hl] at sep3
          simp at sep3
        · rw [hl, hl2, (hppres v hl).1, (hqpres w hl2).1, e] at sep3
          exact sep3 rfl
  have hcm : c ≠ m := by omega
  have hpm : p ≠ m := by omega
  have hqm' : q ≠ m := by omega
  have hcs : c ≠ s := by omega
  have hps' : p ≠ s := by omega
  have hcq : c ≠ q := fun e => hqc e.symm
  have hcp : c ≠ p := fun e => hpc e.symm
  have hqp : q ≠ p := fun e => hpq e.symm
  -- the two security contexts after the call
  have hpod' : heapLookup h' (some c) "podSecurityContext" = some (RefValue.map (some p)) := by
    rw [hreads c _ hcm]
    cases hl : heapLookup h (some c) "podSecurityContext" with
    | none => simp [containerReads, podReads, hcq, hcs, hcp]
    | some v => simp [containerReads, podReads, hcq, hcs, hcp, (hppres v hl).1]
  have hcontainer' : heapLookup h' (some c) "containerSecurityContext"
      = some (RefValue.map (some q)) := by
    rw [hreads c _ hcm]
    cases hl : heapLookup h (some c) "containerSecurityContext" with
    | none => simp [containerReads, podReads, hcq, hcs, hcp]
    | some v => simp [containerReads, podReads, hcq, hcs, hcp, hl, (hqpres v hl).1]
  -- what the two security contexts read before the call
  have hpodBefore : ∀ k, heapGetPath h (RefValue.map (some c)) ["podSecurityContext", k]
      = heapLookup h (some p) k := by
    intro k
    cases hl : heapLookup h (some c) "podSecurityContext" with
    | none =>
      rw [heapGetPath_absent h _ _ _ hl, heapLookup_of_le h p k (by rw [hpabs hl])]
    | some v =>
      rw [(hppres v hl).1] at hl
      rw [heapGetPath_two h _ _ _ _ hl]
  have hcontainerBefore : ∀ k,
      heapGetPath h (RefValue.map (some c)) ["containerSecurityContext", k]
        = heapLookup h (some q) k := by
    intro k
    cases hl : heapLookup h (some c) "containerSecurityContext" with
    | none =>
      rw [heapGetPath_absent h _ _ _ hl,
        heapLookup_of_le h q k (by rw [hqabs hl]; omega)]
    | some v =>
      rw [(hqpres v hl).1] at hl
      rw [heapGetPath_two h _ _ _ _ hl]
  refine ⟨h', hrun, ?_, ?_, ?_, ?_, ⟨s, hs, ?_⟩, ?_, ⟨m, by omega, ?_⟩⟩
  · intro k k1 k2
    rw [hreads c k hcm]
    simp [containerReads, podReads, hcq, hcs, hcp, k1, k2]
  · intro k k1 k2
    rw [heapGetPath_two h' _ _ _ _ hpod', hpodBefore, hreads p k hpm]
    simp [containerReads, podReads, hpq, hpc, hps', k1, k2]
  · intro k k1 k2
    rw [heapGetPath_two h' _ _ _ _ hcontainer', hcontainerBefore, hreads q k hqm']
    simp [containerReads, podReads, hqp, hqc, hqs, k1, k2]
  · rw [heapGetPath_two h' _ _ _ _ hpod', hreads p _ hpm]
    simp [containerReads, podReads, hpq, hpc, hps']
  · rw [heapGetPath_two h' _ _ _ _ hpod', hreads p _ hpm]
    simp [containerReads, podReads, hpq, hpc, hps']
  · rw [heapGetPath_two h' _ _ _ _ hcontainer', hreads q _ hqm']
    simp [containerReads, podReads]
  · rw [heapGetPath_two h' _ _ _ _ hcontainer', hreads q _ hqm']
    simp [containerReads, podReads]

/-- C7, as amended: on every well-shaped configuration in which `cfg`, the map under
"podSecurityContext" and the map under "containerSecurityContext" are different map objects,
the call completes; every sub-key that was set in the pod security context before the call,
other than "runAsNonRoot" and "seccompProfile", and every sub-key that was set in the
container security context, other than "allowPrivilegeEscalation" and "capabilities", is
bound after the call to the value it was bound to before; these four sub-keys are set
whatever they held, "runAsNonRoot" and "allowPrivilegeEscalation" to the defaults,
"seccompProfile" and "capabilities" to map objects made by the call. -/
theorem heapWithDefaultPodSecurityContext_keeps_other_subkeys (d : SecurityDefaults)
    (h : Heap) (cfg : Option Nat) (hw : HeapWellShaped h cfg = true)
    (hsep : Separate h cfg = true) :
    ∃ h' : Heap,
      heapWithDefaultPodSecurityContext d h cfg = Except.ok h' ∧
      (∀ k v, k ≠ "runAsNonRoot" → k ≠ "seccompProfile" →
        heapGetPath h (RefValue.map cfg) ["podSecurityContext", k] = some v →
        heapGetPath h' (RefValue.map cfg) ["podSecurityContext", k] = some v) ∧
      (∀ k v, k ≠ "allowPrivilegeEscalation" → k ≠ "capabilities" →
        heapGetPath h (RefValue.map cfg) ["containerSecurityContext", k] = some v →
        heapGetPath h' (RefValue.map cfg) ["containerSecurityContext", k] = some v) ∧
      heapGetPath h' (RefValue.map cfg) ["podSecurityContext", "runAsNonRoot"]
        = some (RefValue.bool d.RunAsNonRoot) ∧
      (∃ s, h.length ≤ s ∧
        heapGetPath h' (RefValue.map cfg) ["podSecurityContext", "seccompProfile"]
          = some (RefValue.map (some s))) ∧
      heapGetPath h' (RefValue.map cfg) ["containerSecurityContext",
          "allowPrivilegeEscalation"] = some (RefValue.bool d.AllowPrivilegeEscalation) ∧
      (∃ m, h.length ≤ m ∧
        heapGetPath h' (RefValue.map cfg) ["containerSecurityContext", "capabilities"]
          = some (RefValue.map (some m))) := by
  obtain ⟨c, rfl⟩ := heapWellShaped_exists hw
  obtain ⟨h', hrun, -, hpod, hcontainer, hrest⟩ :=
    heapWithDefaultPodSecurityContext_separate d h c hw hsep
  refine ⟨h', hrun, ?_, ?_, hrest⟩
  · intro k v k1 k2 hv
    rw [hpod k k1 k2, hv]
  · intro k v k1 k2 hv
    rw [hcontainer k k1 k2, hv]

/-- C7 at a heap of three map objects, the configuration and one map under each key:
`fsGroup` and `privileged` keep their values and `runAsNonRoot`, which was false, is
true. -/
theorem heapWithDefaultPodSecurityContext_keeps_other_subkeys_witness :
    ∃ h' : Heap,
      heapWithDefaultPodSecurityContext (specDefaults ["ALL"] [])
        [[("podSecurityContext", RefValue.map (some 1)),
            ("containerSecurityContext", RefValue.map (some 2))],
          [("runAsNonRoot", RefValue.bool false), ("fsGroup", RefValue.other "int 2000")],
          [("privileged", RefValue.bool false)]] (some 0) = Except.ok h' ∧
      heapGetPath h' (RefValue.map (some 0)) ["podSecurityContext", "fsGroup"]
        = some (RefValue.other "int 2000") ∧
      heapGetPath h' (RefValue.map (some 0)) ["containerSecurityContext", "privileged"]
        = some (RefValue.bool false) ∧
      heapGetPath h' (RefValue.map (some 0)) ["podSecurityContext", "runAsNonRoot"]
        = some (RefValue.bool true) := by
  obtain ⟨h', hrun, hpod, hcontainer, hroot, -⟩ :=
    heapWithDefaultPodSecurityContext_keeps_other_subkeys (specDefaults ["ALL"] [])
      [[("podSecurityContext", RefValue.map (some 1)),
          ("containerSecurityContext", RefValue.map (some 2))],
        [("runAsNonRoot", RefValue.bool false), ("fsGroup", RefValue.other "int 2000")],
        [("privileged", RefValue.bool false)]] (some 0) (by decide) (by decide)
  exact ⟨h', hrun, hpod "fsGroup" _ (by decide) (by decide) (by decide),
    hcontainer "privileged" _ (by decide) (by decide) (by decide), hroot⟩

/-- C12 fails as stated: with one map object bound under both "podSecurityContext" and
"containerSecurityContext", the configuration is well-shaped, and the call, writing through
the second key, changes `allowPrivilegeEscalation` from true to false in the pod security
context and adds `capabilities` to it, two sub-keys the claim says are left alone. -/
theorem heapWithDefaultPodSecurityContext_shared :
    HeapWellShaped
        [[("podSecurityContext", RefValue.map (some 1)),
            ("containerSecurityContext", RefValue.map (some 1))],
          [("allowPrivilegeEscalation", RefValue.bool true)]] (some 0) = true ∧
      heapWithDefaultPodSecurityContext (specDefaults ["ALL"] [])
        [[("podSecurityContext", RefValue.map (some 1)),
            ("containerSecurityContext", RefValue.map (some 1))],
          [("allowPrivilegeEscalation", RefValue.bool true)]] (some 0) =
        Except.ok
          [[("podSecurityContext", RefValue.map (some 1)),
              ("containerSecurityContext", RefValue.map (some 1))],
            [("allowPrivilegeEscalation", RefValue.bool false),
              ("runAsNonRoot", RefValue.bool true),
              ("seccompProfile", RefValue.map (some 2)),
              ("capabilities", RefValue.map (some 3))],
            [("type", RefValue.str "RuntimeDefault")],
            [("drop", RefValue.strs ["ALL"])]] ∧
      heapGetPath
        [[("podSecurityContext", RefValue.map (some 1)),
            ("containerSecurityContext", RefValue.map (some 1))],
          [("allowPrivilegeEscalation", RefValue.bool true)]]
        (RefValue.map (some 0)) ["podSecurityContext", "allowPrivilegeEscalation"]
        = some (RefValue.bool true) ∧
      heapGetPath
        [[("podSecurityContext", RefValue.map (some 1)),
            ("containerSecurityContext", RefValue.map (some 1))],
          [("allowPrivilegeEscalation", RefValue.bool false),
            ("runAsNonRoot", RefValue.bool true),
            ("seccompProfile", RefValue.map (some 2)),
            ("capabilities", RefValue.map (some 3))],
          [("type", RefValue.str "RuntimeDefault")],
          [("drop", RefValue.strs ["ALL"])]]
        (RefValue.map (some 0)) ["podSecurityContext", "allowPrivilegeEscalation"]
        = some (RefValue.bool false) ∧
      heapGetPath
        [[("podSecurityContext", RefValue.map (some 1)),
            ("containerSecurityContext", RefValue.map (some 1))],
          [("allowPrivilegeEscalation", RefValue.bool true)]]
        (RefValue.map (some 0)) ["podSecurityContext", "capabilities"] = none ∧
      heapGetPath
        [[("podSecurityContext", RefValue.map (some 1)),
            ("containerSecurityContext", RefValue.map (some 1))],
          [("allowPrivilegeEscalation", RefValue.bool false),
            ("runAsNonRoot", RefValue.bool true),
            ("seccompProfile", RefValue.map (some 2)),
            ("capabilities", RefValue.map (some 3))],
          [("type", RefValue.str "RuntimeDefault")],
          [("drop", RefValue.strs ["ALL"])]]
        (RefValue.map (some 0)) ["podSecurityContext", "capabilities"]
        = some (RefValue.map (some 3)) := by
  refine ⟨by decide, rfl, by decide, by decide, by decide, by decide⟩

/-- C12, as amended: on every well-shaped configuration the call completes, no map object
goes away, and of the map objects in existence before the call it writes only the entries
in `Writes`: the two security contexts of `cfg`, each only when it was absent;
"runAsNonRoot" and "seccompProfile" of the object under "podSecurityContext";
"allowPrivilegeEscalation" and "capabilities" of the object under
"containerSecurityContext". Every other entry of every such object reads after the call
what it read before, a key that was not set staying unset; in particular every entry of a
map object other than `cfg` and these two objects does. When `cfg` and the two objects are
different map objects, every top-level key of `cfg` other than the two security contexts,
and every sub-key of either security context other than these four, is bound after the call
to the value it was bound to before, or unset as before. -/
theorem heapWithDefaultPodSecurityContext_frame (d : SecurityDefaults) (h : Heap)
    (cfg : Option Nat) (hw : HeapWellShaped h cfg = true) :
    ∃ h' : Heap,
      heapWithDefaultPodSecurityContext d h cfg = Except.ok h' ∧ h.length ≤ h'.length ∧
      (∀ a k, a < h.length → ¬ Writes h cfg a k →
        heapLookup h' (some a) k = heapLookup h (some a) k) ∧
      (∀ a, a < h.length → cfg ≠ some a →
        heapIndex h cfg "podSecurityContext" ≠ RefValue.map (some a) →
        heapIndex h cfg "containerSecurityContext" ≠ RefValue.map (some a) →
        ∀ k, heapLookup h' (some a) k = heapLookup h (some a) k) ∧
      (Separate h cfg = true →
        (∀ k, k ≠ "podSecurityContext" → k ≠ "containerSecurityContext" →
          heapLookup h' cfg k = heapLookup h cfg k) ∧
        (∀ k, k ≠ "runAsNonRoot" → k ≠ "seccompProfile" →
          heapGetPath h' (RefValue.map cfg) ["podSecurityContext", k]
            = heapGetPath h (RefValue.map cfg) ["podSecurityContext", k]) ∧
        (∀ k, k ≠ "allowPrivilegeEscalation" → k ≠ "capabilities" →
          heapGetPath h' (RefValue.map cfg) ["containerSecurityContext", k]
            = heapGetPath h (RefValue.map cfg) ["containerSecurityContext", k])) := by
  obtain ⟨c, rfl⟩ := heapWellShaped_exists hw
  obtain ⟨h', hrun, hlen, hframe⟩ := heapWithDefaultPodSecurityContext_unwritten d h c hw
  refine ⟨h', hrun, hlen, hframe, ?_, ?_⟩
  · intro a ha hcfg hpod hcontainer k
    apply hframe a k ha
    rintro (⟨e, -⟩ | ⟨e, -⟩ | ⟨e, -⟩)
    · exact hcfg e
    · exact hpod e
    · exact hcontainer e
  intro hsep
  obtain ⟨h'', hrun', htop, hpod, hcontainer, -⟩ :=
    heapWithDefaultPodSecurityContext_separate d h c hw hsep
  have e : h'' = h' := by
    rw [hrun] at hrun'
    exact (Except.ok.inj hrun').symm
  subst e
  exact ⟨htop, hpod, hcontainer⟩

/-- C12 at a heap of three different map objects, with a third top-level key and other
sub-keys under both security contexts: `replicas`, `fsGroup` and `privileged` read as
before, and `hostPID`, which was not set under the pod security context, is not set
afterwards. -/
theorem heapWithDefaultPodSecurityContext_frame_witness :
    ∃ h' : Heap,
      heapWithDefaultPodSecurityContext (specDefaults ["ALL"] [])
        [[("replicas", RefValue.other "int 3"),
            ("podSecurityContext", RefValue.map (some 1)),
            ("containerSecurityContext", RefValue.map (some 2))],
          [("fsGroup", RefValue.other "int 2000"), ("runAsNonRoot", RefValue.bool false)],
          [("privileged", RefValue.bool false)]] (some 0) = Except.ok h' ∧
      heapLookup h' (some 0) "replicas" = some (RefValue.other "int 3") ∧
      heapGetPath h' (RefValue.map (some 0)) ["podSecurityContext", "fsGroup"]
        = some (RefValue.other "int 2000") ∧
      heapGetPath h' (RefValue.map (some 0)) ["podSecurityContext", "hostPID"] = none ∧
      heapGetPath h' (RefValue.map (some 0)) ["containerSecurityContext", "privileged"]
        = some (RefValue.bool false) := by
  obtain ⟨h', hrun, -, -, -, hsep⟩ :=
    heapWithDefaultPodSecurityContext_frame (specDefaults ["ALL"] [])
      [[("replicas", RefValue.other "int 3"),
          ("podSecurityContext", RefValue.map (some 1)),
          ("containerSecurityContext", RefValue.map (some 2))],
        [("fsGroup", RefValue.other "int 2000"), ("runAsNonRoot", RefValue.bool false)],
        [("privileged", RefValue.bool false)]] (some 0) (by decide)
  obtain ⟨htop, hpod, hcontainer⟩ := hsep (by decide)
  refine ⟨h', hrun, ?_, ?_, ?_, ?_⟩
  · rw [htop "replicas" (by decide) (by decide)]
    decide
  · rw [hpod "fsGroup" (by decide) (by decide)]
    decide
  · rw [hpod "hostPID" (by decide) (by decide)]
    decide
  · rw [hcontainer "privileged" (by decide) (by decide)]
    decide

/-- The three leaves on the heap, whether or not map objects are shared: on every
well-shaped configuration the call completes and afterwards
`podSecurityContext.runAsNonRoot`, `podSecurityContext.seccompProfile.type` and
`containerSecurityContext.allowPrivilegeEscalation` hold the defaults, as on the tree
model. -/
theorem heapWithDefaultPodSecurityContext_leaves (d : SecurityDefaults) (h : Heap) (c : Nat)
    (hw : HeapWellShaped h (some c) = true) :
    ∃ h' : Heap,
      heapWithDefaultPodSecurityContext d h (some c) = Except.ok h' ∧
      heapGetPath h' (RefValue.map (some c)) ["podSecurityContext", "runAsNonRoot"]
        = some (RefValue.bool d.RunAsNonRoot) ∧
      heapGetPath h' (RefValue.map (some c)) ["podSecurityContext", "seccompProfile", "type"]
        = some (RefValue.str d.SeccompProfileType) ∧
      heapGetPath h' (RefValue.map (some c)) ["containerSecurityContext",
          "allowPrivilegeEscalation"] = some (RefValue.bool d.AllowPrivilegeEscalation) := by
  obtain ⟨h', p, s, q, m, hrun, hlen, hc, hs, hsm, hps, hqm, hqs, hpabs, hppres, hqabs, hqpres,
    hreads⟩ := heapWithDefaultPodSecurityContext_spec d h c hw
  have hcm : c ≠ m := by omega
  have hpm : p ≠ m := by omega
  have hqm' : q ≠ m := by omega
  have hsm' : s ≠ m := by omega
  have hcs : c ≠ s := by omega
  have hps' : p ≠ s := by omega
  have hsq : s ≠ q := fun e => hqs e.symm
  have hpod' : heapLookup h' (some c) "podSecurityContext" = some (RefValue.map (some p)) := by
    rw [hreads c _ hcm]
    cases hl : heapLookup h (some c) "podSecurityContext" with
    | none => simp [containerReads, podReads, hcs]
    | some v => simp [containerReads, podReads, hcs, (hppres v hl).1]
  have hcontainer' : heapLookup h' (some c) "containerSecurityContext"
      = some (RefValue.map (some q)) := by
    rw [hreads c _ hcm]
    cases hl : heapLookup h (some c) "containerSecurityContext" with
    | none => simp [containerReads, podReads, hcs]
    | some v => simp [containerReads, podReads, hcs, hl, (hqpres v hl).1]
  have hprofile : heapLookup h' (some p) "seccompProfile" = some (RefValue.map (some s)) := by
    rw [hreads p _ hpm]
    simp [containerReads, podReads, hps']
  have htype : heapLookup h' (some s) "type" = some (RefValue.str d.SeccompProfileType) := by
    rw [hreads s _ hsm']
    simp [containerReads, podReads, hsq]
  refine ⟨h', hrun, ?_, ?_, ?_⟩
  · rw [heapGetPath_two h' _ _ _ _ hpod', hreads p _ hpm]
    simp [containerReads, podReads, hps']
  · simp only [heapGetPath, hpod', hprofile, htype]
  · rw [heapGetPath_two h' _ _ _ _ hcontainer', hreads q _ hqm']
    simp [containerReads, podReads]

/-- The leaves at the heap in which one map object is bound under both keys. -/
theorem heapWithDefaultPodSecurityContext_leaves_shared :
    ∃ h' : Heap,
      heapWithDefaultPodSecurityContext (specDefaults ["ALL"] [])
        [[("podSecurityContext", RefValue.map (some 1)),
            ("containerSecurityContext", RefValue.map (some 1))],
          [("allowPrivilegeEscalation", RefValue.bool true)]] (some 0) = Except.ok h' ∧
      heapGetPath h' (RefValue.map (some 0)) ["podSecurityContext", "runAsNonRoot"]
        = some (RefValue.bool true) ∧
      heapGetPath h' (RefValue.map (some 0)) ["podSecurityContext", "seccompProfile", "type"]
        = some (RefValue.str "RuntimeDefault") ∧
      heapGetPath h' (RefValue.map (some 0)) ["containerSecurityContext",
          "allowPrivilegeEscalation"] = some (RefValue.bool false) :=
  heapWithDefaultPodSecurityContext_leaves (specDefaults ["ALL"] []) _ 0 (by decide)

end k8s
